import Mathlib

/-!
Verification of the metadata synchronization and column-semantics pipeline of the
voicetodashboard repository (Netlify functions `enhanced-schema-sync` — the unnamed
source file `part_007` — and `schema-sync.js`, against the relational schema of
`scripts/setup-supabase.sql`).

The JavaScript is embedded shallowly:
* JS values that flow through gateway rows and upsert payloads are modeled by `JsVal`
  (`undefined` = the property is absent / the value is `undefined`, `null`, a string or a
  boolean).  Numeric cells, which no claim depends on, are represented by their string
  forms.
* The MindsDB gateway (`axios.post(MINDSDB_HOST + "/api/sql/query", ...)`) and the
  Gemini text endpoint are modeled as oracle functions supplied as parameters; an
  oracle is a pure function, which matches a remote source whose state does not change
  during the runs under consideration.  Authorization headers (`getAuthHeaders`) carry
  no information used by any claim and are elided from the request record.
* Supabase tables are modeled by lists of row structures inside a `Store`.  A
  PostgREST `upsert(..., { onConflict: key })` updates in place the rows matching the
  natural key, otherwise appends a row with a fresh server-generated id (UUIDs are
  modeled by a `Nat` counter).  A payload property that is `undefined` is dropped by
  JSON serialization, so it leaves the stored column unchanged on update and yields
  SQL `NULL` on insert; `null` and string payloads overwrite the column.
* Wall-clock timestamps (`started_at`, `completed_at`, `new Date().toISOString()`) and
  the 500 ms `setTimeout` rate-limit delay are not observable by any claim and are
  elided.
-/

/-- A JavaScript value as it appears in gateway result cells and upsert payloads. -/
inductive JsVal where
  | undefined
  | null
  | str (s : String)
  | bool (b : Bool)
  deriving DecidableEq, Repr

/-- JavaScript truthiness for the values of `JsVal`. -/
def JsVal.truthy : JsVal → Bool
  | .undefined => false
  | .null => false
  | .str s => s ≠ ""
  | .bool b => b

/-- String coercion as performed by JS template literals and object-key conversion. -/
def JsVal.toKey : JsVal → String
  | .undefined => "undefined"
  | .null => "null"
  | .str s => s
  | .bool b => if b then "true" else "false"

/-- `x || null`: keeps a truthy value, collapses falsy values to `null`
(the `row[i] || null` pattern of `getTableStructure`). -/
def JsVal.orNull (v : JsVal) : JsVal :=
  if v.truthy then v else .null

/-- JS `String.prototype.trim`: strips leading and trailing whitespace (defined
structurally so that concrete instances reduce inside the kernel). -/
def jsTrim (s : String) : String :=
  String.mk (((s.data.dropWhile Char.isWhitespace).reverse.dropWhile
    Char.isWhitespace).reverse)

/-- `row[i]` on a positional gateway row: a missing index is `undefined`. -/
def cellAt (row : List JsVal) (i : Nat) : JsVal :=
  (row.get? i).getD .undefined

/-- Truthiness of an environment-variable string (`!GEMINI_API_KEY`,
`MINDSDB_API_KEY || ''` …): absent and empty are falsy. -/
def envTruthy : Option String → Bool
  | none => false
  | some s => s ≠ ""

/-- Opaque `connection_config` object: key/value pairs passed through to the gateway. -/
abbrev Config := List (String × String)

/-- `connection_config.<key>` access: `none` models `undefined`. -/
def configGet (c : Config) (k : String) : Option String :=
  (c.find? (fun p => p.1 == k)).map (·.2)

/-- `v || dflt` on an optional config string (the `connection_config.database ||
'public'` pattern). -/
def jsOrDefault (v : Option String) (dflt : String) : String :=
  match v with
  | some s => if s ≠ "" then s else dflt
  | none => dflt

/-- Template-literal coercion of an optional config string. -/
def jsTemplateOpt : Option String → String
  | some s => s
  | none => "undefined"

/-- The `connection` object sent in the request body (name, type, description,
connection_config). -/
structure ConnInput where
  name : String
  ctype : String
  description : JsVal
  connection_config : Config
  deriving DecidableEq, Repr

/-- Process environment: only `GEMINI_API_KEY` influences behavior observable by the
claims (the MindsDB credentials only feed the elided Authorization header). -/
structure Env where
  geminiApiKey : Option String
  deriving DecidableEq, Repr

/-- A request to `POST <MINDSDB_HOST>/api/sql/query`: the SQL text plus the
`context.datasource` object (`{type, ...connection_config}`). -/
structure GwReq where
  query : String
  dstype : String
  config : Config
  deriving DecidableEq, Repr

/-- A gateway response: an axios-level error, or a parsed body
`{type: rtype, data: rows}` with positional rows. -/
inductive GwResp where
  | err (msg : String)
  | ok (rtype : String) (rows : List (List JsVal))
  deriving DecidableEq, Repr

/-- The gateway as an oracle. -/
abbrev Gateway := GwReq → GwResp

/-- `EnhancedMetadataExtractor.getDatabases`: `SHOW DATABASES` through the gateway;
a `type == 'table'` body yields `data.map(row => row[0])`; any other body yields `[]`;
a thrown axios error is caught and replaced by the fallback `['default']`. -/
def getDatabases (gw : Gateway) (conn : ConnInput) : List JsVal :=
  match gw { query := "SHOW DATABASES", dstype := conn.ctype, config := conn.connection_config } with
  | .err _ => [.str "default"]
  | .ok rtype rows => if rtype = "table" then rows.map (fun r => cellAt r 0) else []

/-- `EnhancedMetadataExtractor.getTables`: `SHOW TABLES FROM <database>`; errors are
caught and replaced by `[]`. -/
def getTables (gw : Gateway) (conn : ConnInput) (database : JsVal) : List JsVal :=
  match gw { query := "SHOW TABLES FROM " ++ database.toKey,
             dstype := conn.ctype, config := conn.connection_config } with
  | .err _ => []
  | .ok rtype rows => if rtype = "table" then rows.map (fun r => cellAt r 0) else []

/-- The MySQL `INFORMATION_SCHEMA.COLUMNS` describe query of `getTableStructure`
(whitespace of the multi-line template literal is normalized). -/
def mysqlDescribeSql (database table : String) : String :=
  "SELECT COLUMN_NAME as name, DATA_TYPE as type, IS_NULLABLE as is_nullable, " ++
  "COLUMN_DEFAULT as default_expression, COLUMN_COMMENT as comment " ++
  "FROM INFORMATION_SCHEMA.COLUMNS WHERE TABLE_SCHEMA = '" ++ database ++
  "' AND TABLE_NAME = '" ++ table ++ "' ORDER BY ORDINAL_POSITION"

/-- The PostgreSQL `information_schema.columns` describe query of
`getTableStructure`. -/
def pgDescribeSql (database table : String) : String :=
  "SELECT column_name as name, data_type as type, is_nullable, " ++
  "column_default as default_expression, " ++
  "col_description((table_schema||'.'||table_name)::regclass, ordinal_position) as comment " ++
  "FROM information_schema.columns WHERE table_schema = '" ++ database ++
  "' AND table_name = '" ++ table ++ "' ORDER BY ordinal_position"

/-- The dialect `switch` of `getTableStructure`: builds the describe query or throws
`Unsupported data source type: <type>` (the `default:` branch). -/
def describeQueryFor (ctype database table : String) : Except String String :=
  match ctype with
  | "clickhouse" => .ok ("DESCRIBE TABLE " ++ database ++ "." ++ table)
  | "mysql" => .ok (mysqlDescribeSql database table)
  | "postgresql" => .ok (pgDescribeSql database table)
  | _ => .error ("Unsupported data source type: " ++ ctype)

/-- A normalized column descriptor, as built by `getTableStructure` and later mutated
by the analyzer (`ai_definition`).  `is_nullable` is `none` on the ClickHouse branch,
where the property is never assigned. -/
structure Column where
  name : JsVal
  ctype : JsVal
  is_nullable : Option Bool
  default_type : JsVal
  default_expression : JsVal
  comment : JsVal
  codec_expression : JsVal
  ttl_expression : JsVal
  ai_definition : JsVal
  deriving DecidableEq, Repr

/-- Row mapping of the ClickHouse `DESCRIBE TABLE` branch of `getTableStructure`. -/
def parseColumnCH (row : List JsVal) : Column :=
  { name := cellAt row 0
    ctype := cellAt row 1
    is_nullable := none
    default_type := (cellAt row 2).orNull
    default_expression := (cellAt row 3).orNull
    comment := (cellAt row 4).orNull
    codec_expression := (cellAt row 5).orNull
    ttl_expression := (cellAt row 6).orNull
    ai_definition := .undefined }

/-- Row mapping of the MySQL/PostgreSQL branch of `getTableStructure`
(`is_nullable: row[2] === 'YES' || row[2] === true`). -/
def parseColumnSql (row : List JsVal) : Column :=
  { name := cellAt row 0
    ctype := cellAt row 1
    is_nullable := some (cellAt row 2 == .str "YES" || cellAt row 2 == .bool true)
    default_type := .undefined
    default_expression := (cellAt row 3).orNull
    comment := (cellAt row 4).orNull
    codec_expression := .undefined
    ttl_expression := .undefined
    ai_definition := .undefined }

/-- `EnhancedMetadataExtractor.getTableStructure`: builds the dialect describe query,
posts it to the gateway, and maps the rows.  The surrounding `try/catch` turns both
the unsupported-type throw and any gateway error into the fallback result `[]`. -/
def getTableStructure (gw : Gateway) (conn : ConnInput) (database table : JsVal) :
    List Column :=
  match describeQueryFor conn.ctype database.toKey table.toKey with
  | .error _ => []
  | .ok q =>
    match gw { query := q, dstype := conn.ctype, config := conn.connection_config } with
    | .err _ => []
    | .ok rtype rows =>
      if rtype = "table" then
        rows.map (fun r => if conn.ctype = "clickhouse" then parseColumnCH r else parseColumnSql r)
      else []

/-- One request to the Gemini `generateContent` endpoint; the five values below are
exactly the data interpolated into the fixed prompt template of
`generateColumnDefinition` (already template-coerced to strings). -/
structure GeminiCall where
  databaseName : String
  schemaName : String
  tableName : String
  columnName : String
  columnType : String
  deriving DecidableEq, Repr

/-- A Gemini response: an axios-level error, or a body whose
`candidates?.[0]?.content?.parts?.[0]?.text` optional chain yields `none` or a
string. -/
inductive GeminiResp where
  | err (msg : String)
  | ok (text : Option String)
  deriving DecidableEq, Repr

/-- The Gemini endpoint as an oracle. -/
abbrev Gemini := GeminiCall → GeminiResp

/-- The deterministic fallback string of `generateColumnDefinition`. -/
def fallbackDefinition (columnName columnType : JsVal) : String :=
  "Column " ++ columnName.toKey ++ " of type " ++ columnType.toKey

/-- `GeminiLLMAnalyzer.generateColumnDefinition`: disabled ⇒ fallback without a call;
enabled ⇒ one call; a truthy response text is trimmed, anything else (missing text,
empty text, thrown error) degrades to the fallback.  The second component lists the
external requests issued. -/
def generateColumnDefinition (enabled : Bool) (gm : Gemini)
    (tableName columnName columnType databaseName schemaName : JsVal) :
    String × List GeminiCall :=
  if !enabled then
    (fallbackDefinition columnName columnType, [])
  else
    let call : GeminiCall :=
      { databaseName := databaseName.toKey
        schemaName := schemaName.toKey
        tableName := tableName.toKey
        columnName := columnName.toKey
        columnType := columnType.toKey }
    let text :=
      match gm call with
      | .err _ => fallbackDefinition columnName columnType
      | .ok none => fallbackDefinition columnName columnType
      | .ok (some t) => if t ≠ "" then jsTrim t else fallbackDefinition columnName columnType
    (text, [call])

/-- The guard `!column.comment || column.comment.trim() === ''` of
`analyzeTableStructure`.  `ok true` ⇒ a definition is generated; `ok false` ⇒ the
comment is kept; `error` models the `TypeError` thrown when a truthy non-string
(`bool true`) reaches `.trim()`. -/
def commentNeedsGeneration : JsVal → Except Unit Bool
  | .undefined => .ok true
  | .null => .ok true
  | .bool false => .ok true
  | .bool true => .error ()
  | .str s => .ok (jsTrim s = "")

/-- The column loop of `GeminiLLMAnalyzer.analyzeTableStructure`.  Columns are mutated
in place in the source, so on a thrown `TypeError` the already-processed prefix keeps
its `ai_definition` while the rest is returned untouched; the third component records
whether the loop threw. -/
def analyzeColumns (enabled : Bool) (gm : Gemini) (tableName : JsVal)
    (databaseName schemaName : JsVal) :
    List Column → List Column × List GeminiCall × Bool
  | [] => ([], [], false)
  | c :: rest =>
    match commentNeedsGeneration c.comment with
    | .error _ => (c :: rest, [], true)
    | .ok true =>
      let gen := generateColumnDefinition enabled gm tableName c.name c.ctype
        databaseName schemaName
      let tail := analyzeColumns enabled gm tableName databaseName schemaName rest
      ({ c with ai_definition := .str gen.1 } :: tail.1, gen.2 ++ tail.2.1, tail.2.2)
    | .ok false =>
      let tail := analyzeColumns enabled gm tableName databaseName schemaName rest
      ({ c with ai_definition := c.comment } :: tail.1, tail.2.1, tail.2.2)

/-- `{columns, column_count}` as stored under `metadata.databases[...]
.schemas[...].tables[table]`. -/
structure TableEntry where
  columns : List Column
  column_count : Nat
  deriving DecidableEq, Repr

/-- `{tables: {...}}`: a JS object in insertion order. -/
structure SchemaEntry where
  tables : List (String × TableEntry)
  deriving DecidableEq, Repr

/-- `{schemas: {...}}`. -/
structure DbEntry where
  schemas : List (String × SchemaEntry)
  deriving DecidableEq, Repr

/-- The `metadata` value built by `extractComprehensiveMetadata`. -/
structure Metadata where
  databases : List (String × DbEntry)
  deriving DecidableEq, Repr

/-- JS object property assignment `o[k] = v`: replaces in place, else appends. -/
def objSet {α : Type} : List (String × α) → String → α → List (String × α)
  | [], k, v => [(k, v)]
  | (k₀, v₀) :: rest, k, v =>
    if k₀ = k then (k, v) :: rest else (k₀, v₀) :: objSet rest k v

/-- Per-table step of `extractComprehensiveMetadata`: describe the table, and when the
analyzer is enabled run `analyzeTableStructure` (its `try/catch` only logs a warning;
the in-place mutation of the column objects means the columns reflect the processed
prefix even when the loop threw, and the `splice` on success rewrites the same
content). -/
def extractTable (enabled : Bool) (gw : Gateway) (gm : Gemini) (conn : ConnInput)
    (database : JsVal) (schemaName : String) (table : JsVal) :
    TableEntry × List GeminiCall :=
  let columns := getTableStructure gw conn database table
  let analyzed :=
    if enabled then
      let r := analyzeColumns enabled gm table database (.str schemaName) columns
      (r.1, r.2.1)
    else
      (columns, [])
  ({ columns := analyzed.1, column_count := analyzed.1.length }, analyzed.2)

/-- Per-schema step: `getTables` for the database, then process each table, writing
`tables[table]` with JS object-key semantics. -/
def extractSchemaEntry (enabled : Bool) (gw : Gateway) (gm : Gemini) (conn : ConnInput)
    (database : JsVal) (schemaName : String) : SchemaEntry × List GeminiCall :=
  let tables := getTables gw conn database
  let step := tables.foldl
    (fun (acc : List (String × TableEntry) × List GeminiCall) table =>
      let r := extractTable enabled gw gm conn database schemaName table
      (objSet acc.1 table.toKey r.1, acc.2 ++ r.2))
    ([], [])
  ({ tables := step.1 }, step.2)

/-- Per-database step: the source uses the fixed schema list `['default']`. -/
def extractDbEntry (enabled : Bool) (gw : Gateway) (gm : Gemini) (conn : ConnInput)
    (database : JsVal) : DbEntry × List GeminiCall :=
  let step := ["default"].foldl
    (fun (acc : List (String × SchemaEntry) × List GeminiCall) schemaName =>
      let r := extractSchemaEntry enabled gw gm conn database schemaName
      (objSet acc.1 schemaName r.1, acc.2 ++ r.2))
    ([], [])
  ({ schemas := step.1 }, step.2)

/-- `EnhancedMetadataExtractor.extractComprehensiveMetadata`: walk
databases → schemas → tables → columns; annotation runs only when the analyzer is
enabled (`GeminiLLMAnalyzer.enabled`, i.e. a truthy `GEMINI_API_KEY`).  Also returns
the Gemini requests issued during the run, in order. -/
def extractComprehensiveMetadata (enabled : Bool) (gw : Gateway) (gm : Gemini)
    (conn : ConnInput) : Metadata × List GeminiCall :=
  let databases := getDatabases gw conn
  let step := databases.foldl
    (fun (acc : List (String × DbEntry) × List GeminiCall) database =>
      let r := extractDbEntry enabled gw gm conn database
      (objSet acc.1 database.toKey r.1, acc.2 ++ r.2))
    ([], [])
  ({ databases := step.1 }, step.2)

/-- The number of databases in the success summary
(`Object.keys(metadata.databases).length`). -/
def summaryDatabases (md : Metadata) : Nat := md.databases.length

/-- The number of tables in the success summary (nested `reduce` over
`Object.keys(schema.tables).length`). -/
def summaryTables (md : Metadata) : Nat :=
  md.databases.foldl
    (fun total db => total + db.2.schemas.foldl (fun t s => t + s.2.tables.length) 0) 0

/-- The number of columns in the success summary (nested `reduce` over
`table.column_count`). -/
def summaryColumns (md : Metadata) : Nat :=
  md.databases.foldl
    (fun total db => total + db.2.schemas.foldl
      (fun t s => t + s.2.tables.foldl (fun u tbl => u + tbl.2.column_count) 0) 0) 0

/-- The `metadata` JSONB blobs written by the two store writers. -/
inductive MetaBlob where
  | dbInfo (d : DbEntry)
  | tableInfo (t : TableEntry)
  | columnInfo (c : Column)
  | dsType (s : String)
  deriving DecidableEq, Repr

/-- A `data_source_schemas` row (columns actually touched by the writers; timestamp
columns elided). -/
structure SchemaRow where
  id : Nat
  connection_id : Nat
  name : String
  stype : String
  description : String
  metadata : MetaBlob
  deriving DecidableEq, Repr

/-- A `data_source_objects` row.  `row_count` is a `JsVal` because the enhanced writer
sends an explicit `null` while the basic writer omits the property. -/
structure ObjectRow where
  id : Nat
  schema_id : Nat
  name : String
  otype : String
  description : String
  row_count : JsVal
  metadata : MetaBlob
  deriving DecidableEq, Repr

/-- A `data_source_fields` row (the columns of `setup-supabase.sql` written by the
enhanced writer). -/
structure FieldRow where
  id : Nat
  object_id : Nat
  name : JsVal
  data_type : JsVal
  is_nullable : Bool
  default_type : JsVal
  default_expression : JsVal
  comment : JsVal
  codec_expression : JsVal
  ttl_expression : JsVal
  description : JsVal
  ai_description : JsVal
  business_definition : JsVal
  metadata : MetaBlob
  deriving DecidableEq, Repr

/-- A `field_semantics_history` row (per `setup-supabase.sql` lines 107-116). -/
structure HistoryRow where
  id : Nat
  field_id : Nat
  description : String
  ai_description : Option String
  business_definition : Option String
  deriving DecidableEq, Repr

/-- A `data_source_connections` row (columns touched by the handlers). -/
structure ConnectionRow where
  id : Nat
  name : String
  ctype : String
  description : JsVal
  connection_config : Config
  organization_id : String
  created_by : String
  deriving DecidableEq, Repr

/-- A `metadata_extraction_jobs` row (columns touched by the enhanced handler;
timestamps elided). -/
structure JobRow where
  id : Nat
  connection_id : Nat
  status : String
  ai_analysis_enabled : Bool
  progress_percentage : Option Nat
  error_message : Option String
  metadata : Option Metadata
  deriving DecidableEq, Repr

/-- A `data_source_sync_history` row (written by `logSyncHistory` of
`schema-sync.js`); `completed` models whether `completed_at` was set. -/
structure SyncHistoryRow where
  id : Nat
  connection_id : Option Nat
  sync_type : String
  status : String
  objects_synced : Nat
  fields_synced : Nat
  error_message : Option String
  completed : Bool
  deriving DecidableEq, Repr

/-- The Supabase state: one list per table plus the id counter standing in for the
server's UUID generator. -/
structure Store where
  nextId : Nat
  connections : List ConnectionRow
  jobs : List JobRow
  syncHistory : List SyncHistoryRow
  schemas : List SchemaRow
  objects : List ObjectRow
  fields : List FieldRow
  history : List HistoryRow
  deriving DecidableEq, Repr

/-- The empty database. -/
def Store.empty : Store := ⟨0, [], [], [], [], [], [], []⟩

/-- Update semantics of one payload property on `UPDATE`: an `undefined` property is
dropped by JSON serialization and leaves the column unchanged. -/
def applyVal (new old : JsVal) : JsVal :=
  match new with
  | .undefined => old
  | v => v

/-- Insert semantics of one payload property: a dropped (`undefined`) property leaves
the column at its SQL default, `NULL`. -/
def insertVal (new : JsVal) : JsVal :=
  match new with
  | .undefined => .null
  | v => v

/-- `.from('data_source_schemas').select(...).eq('connection_id', cid).eq('name', n)`
row predicate. -/
def schemaKeyIs (cid : Nat) (n : String) (r : SchemaRow) : Bool :=
  r.connection_id == cid && r.name == n

/-- First row matching a `(connection_id, name)` schema key. -/
def findSchemaRow (l : List SchemaRow) (cid : Nat) (n : String) : Option SchemaRow :=
  l.find? (schemaKeyIs cid n)

/-- Update of one schema row by the upsert payload (the id and key are preserved). -/
def updateSchemaRow (stype description : String) (metadata : MetaBlob) (r : SchemaRow) :
    SchemaRow :=
  { r with stype := stype, description := description, metadata := metadata }

/-- `upsert(payload, { onConflict: 'connection_id,name' }).select().single()` on
`data_source_schemas`: update in place on a key hit (the id is preserved), append a
fresh row otherwise; also returns the row the `.single()` call yields. -/
def upsertSchemaRow (st : Store) (cid : Nat) (n stype description : String)
    (metadata : MetaBlob) : Store × SchemaRow :=
  match findSchemaRow st.schemas cid n with
  | some r =>
    let updated := st.schemas.map
      (fun x => if schemaKeyIs cid n x then updateSchemaRow stype description metadata x else x)
    ({ st with schemas := updated }, updateSchemaRow stype description metadata r)
  | none =>
    let r2 : SchemaRow :=
      { id := st.nextId, connection_id := cid, name := n, stype := stype,
        description := description, metadata := metadata }
    ({ st with nextId := st.nextId + 1, schemas := st.schemas ++ [r2] }, r2)

/-- `(schema_id, name)` object key predicate. -/
def objectKeyIs (sid : Nat) (n : String) (r : ObjectRow) : Bool :=
  r.schema_id == sid && r.name == n

/-- First row matching a `(schema_id, name)` object key. -/
def findObjectRow (l : List ObjectRow) (sid : Nat) (n : String) : Option ObjectRow :=
  l.find? (objectKeyIs sid n)

/-- Update of one object row by the upsert payload (`row_count` follows the
`applyVal` payload-property semantics). -/
def updateObjectRow (otype description : String) (row_count : JsVal) (metadata : MetaBlob)
    (r : ObjectRow) : ObjectRow :=
  { r with otype := otype, description := description,
           row_count := applyVal row_count r.row_count, metadata := metadata }

/-- `upsert(..., { onConflict: 'schema_id,name' })` on `data_source_objects`. -/
def upsertObjectRow (st : Store) (sid : Nat) (n otype description : String)
    (row_count : JsVal) (metadata : MetaBlob) : Store × ObjectRow :=
  match findObjectRow st.objects sid n with
  | some r =>
    let updated := st.objects.map
      (fun x => if objectKeyIs sid n x then updateObjectRow otype description row_count metadata x
                else x)
    ({ st with objects := updated }, updateObjectRow otype description row_count metadata r)
  | none =>
    let r2 : ObjectRow :=
      { id := st.nextId, schema_id := sid, name := n, otype := otype,
        description := description, row_count := insertVal row_count, metadata := metadata }
    ({ st with nextId := st.nextId + 1, objects := st.objects ++ [r2] }, r2)

/-- The `data_source_fields` upsert payload built at lines 519-532 of the enhanced
writer from one column descriptor. -/
structure FieldPayload where
  name : JsVal
  data_type : JsVal
  is_nullable : Bool
  default_type : JsVal
  default_expression : JsVal
  comment : JsVal
  codec_expression : JsVal
  ttl_expression : JsVal
  description : JsVal
  ai_description : JsVal
  business_definition : JsVal
  metadata : MetaBlob
  deriving DecidableEq, Repr

/-- Lines 519-532: `description: column.comment`, `ai_description: column.ai_definition`,
`business_definition: column.ai_definition`, `is_nullable: column.is_nullable !== false`. -/
def fieldPayload (c : Column) : FieldPayload :=
  { name := c.name
    data_type := c.ctype
    is_nullable := c.is_nullable != some false
    default_type := c.default_type
    default_expression := c.default_expression
    comment := c.comment
    codec_expression := c.codec_expression
    ttl_expression := c.ttl_expression
    description := c.comment
    ai_description := c.ai_definition
    business_definition := c.ai_definition
    metadata := .columnInfo c }

/-- `(object_id, name)` field key predicate. -/
def fieldKeyIs (oid : Nat) (n : JsVal) (r : FieldRow) : Bool :=
  r.object_id == oid && r.name == n

/-- First row matching an `(object_id, name)` field key. -/
def findFieldRow (l : List FieldRow) (oid : Nat) (n : JsVal) : Option FieldRow :=
  l.find? (fieldKeyIs oid n)

/-- Update of one field row by a payload (all payload properties except the
`undefined` ones overwrite). -/
def updateFieldRow (p : FieldPayload) (r : FieldRow) : FieldRow :=
  { r with data_type := applyVal p.data_type r.data_type
           is_nullable := p.is_nullable
           default_type := applyVal p.default_type r.default_type
           default_expression := applyVal p.default_expression r.default_expression
           comment := applyVal p.comment r.comment
           codec_expression := applyVal p.codec_expression r.codec_expression
           ttl_expression := applyVal p.ttl_expression r.ttl_expression
           description := applyVal p.description r.description
           ai_description := applyVal p.ai_description r.ai_description
           business_definition := applyVal p.business_definition r.business_definition
           metadata := p.metadata }

/-- `upsert(..., { onConflict: 'object_id,name' })` on `data_source_fields`.  The
`name` key column is stored verbatim: a degenerate non-string name would violate the
`name TEXT NOT NULL` column of the real schema and error out, a path no claim
exercises. -/
def upsertFieldRow (st : Store) (oid : Nat) (p : FieldPayload) : Store :=
  match findFieldRow st.fields oid p.name with
  | some _ =>
    let updated := st.fields.map (fun x => if fieldKeyIs oid p.name x then updateFieldRow p x else x)
    { st with fields := updated }
  | none =>
    let r2 : FieldRow := { id := st.nextId, object_id := oid, name := p.name,
                           data_type := insertVal p.data_type, is_nullable := p.is_nullable,
                           default_type := insertVal p.default_type,
                           default_expression := insertVal p.default_expression,
                           comment := insertVal p.comment,
                           codec_expression := insertVal p.codec_expression,
                           ttl_expression := insertVal p.ttl_expression,
                           description := insertVal p.description,
                           ai_description := insertVal p.ai_description,
                           business_definition := insertVal p.business_definition,
                           metadata := p.metadata }
    { st with nextId := st.nextId + 1, fields := st.fields ++ [r2] }

/-- The column loop of `storeComprehensiveMetadata` (lines 516-538): one field upsert
per column.  No `field_semantics_history` row is ever written anywhere in the
repository's code. -/
def storeFields (oid : Nat) : List Column → Store → Store
  | [], st => st
  | c :: rest, st => storeFields oid rest (upsertFieldRow st oid (fieldPayload c))

/-- The table loop of `storeComprehensiveMetadata` (lines 495-539): upsert the object
row, then its columns. -/
def storeTables (sid : Nat) : List (String × TableEntry) → Store → Store
  | [], st => st
  | (tableName, table) :: rest, st =>
    let r := upsertObjectRow st sid tableName "table" ("Table: " ++ tableName)
      .null (.tableInfo table)
    storeTables sid rest (storeFields r.2.id table.columns r.1)

/-- The schema loop inside one database entry (line 494): the schema name itself is
unused by the writer. -/
def storeSchemaEntries (sid : Nat) : List (String × SchemaEntry) → Store → Store
  | [], st => st
  | (_, schema) :: rest, st => storeSchemaEntries sid rest (storeTables sid schema.tables st)

/-- The database loop of `storeComprehensiveMetadata` (lines 475-541): upsert the
schema row for the database, then descend. -/
def storeDatabases (cid : Nat) : List (String × DbEntry) → Store → Store
  | [], st => st
  | (databaseName, database) :: rest, st =>
    let r := upsertSchemaRow st cid databaseName "database"
      ("Database: " ++ databaseName) (.dbInfo database)
    storeDatabases cid rest (storeSchemaEntries r.2.id database.schemas r.1)

/-- `storeComprehensiveMetadata(connectionId, metadata)` of the enhanced sync file. -/
def storeComprehensiveMetadata (cid : Nat) (md : Metadata) (st : Store) : Store :=
  storeDatabases cid md.databases st

/-- `getSchemaType` of `schema-sync.js`. -/
def getSchemaType (dataSourceType : String) : String :=
  match dataSourceType with
  | "clickhouse" => "database"
  | "mysql" => "database"
  | "postgresql" => "database"
  | "mongodb" => "database"
  | "api" => "api_endpoint"
  | _ => "unknown"

/-- `getObjectType` of `schema-sync.js`. -/
def getObjectType (dataSourceType : String) : String :=
  match dataSourceType with
  | "clickhouse" => "table"
  | "mysql" => "table"
  | "postgresql" => "table"
  | "mongodb" => "collection"
  | "api" => "endpoint"
  | _ => "object"

/-- One row as destructured by `storeSchemaData`
(`{database, table, column_name, data_type, default_value}`). -/
structure SchemaDataRow where
  database : String
  table : String
  column_name : String
  data_type : String
  default_value : JsVal
  deriving DecidableEq, Repr

/-- `if (!o[k]) o[k] = v`: first-occurrence grouping of `storeSchemaData`. -/
def objSetIfAbsent {α : Type} : List (String × α) → String → α → List (String × α)
  | [], k, v => [(k, v)]
  | (k₀, v₀) :: rest, k, v =>
    if k₀ = k then (k₀, v₀) :: rest else (k₀, v₀) :: objSetIfAbsent rest k v

/-- A grouped schema entry of `storeSchemaData`. -/
structure BasicSchemaEntry where
  connection_id : Nat
  name : String
  stype : String
  description : String
  metadata : MetaBlob
  deriving DecidableEq, Repr

/-- A grouped object entry of `storeSchemaData`. -/
structure BasicObjectEntry where
  schema_name : String
  name : String
  otype : String
  description : String
  metadata : MetaBlob
  deriving DecidableEq, Repr

/-- A grouped field entry of `storeSchemaData` (`default_value: default_value || null`). -/
structure BasicFieldEntry where
  object_name : String
  schema_name : String
  name : String
  data_type : String
  default_value : JsVal
  metadata : MetaBlob
  deriving DecidableEq, Repr

/-- The grouping `forEach` of `storeSchemaData` (lines 177-212). -/
def groupSchemaData (cid : Nat) (dsType : String) (rows : List SchemaDataRow) :
    List (String × BasicSchemaEntry) × List (String × BasicObjectEntry) × List BasicFieldEntry :=
  rows.foldl
    (fun acc row =>
      let schemas := objSetIfAbsent acc.1 row.database
        { connection_id := cid, name := row.database, stype := getSchemaType dsType,
          description := dsType.toUpper ++ " Database: " ++ row.database,
          metadata := .dsType dsType }
      let objects := objSetIfAbsent acc.2.1 (row.database ++ "." ++ row.table)
        { schema_name := row.database, name := row.table, otype := getObjectType dsType,
          description := dsType.toUpper ++ " Object: " ++ row.table,
          metadata := .dsType dsType }
      let fields := acc.2.2 ++
        [{ object_name := row.table, schema_name := row.database, name := row.column_name,
           data_type := row.data_type, default_value := row.default_value.orNull,
           metadata := .dsType dsType }]
      (schemas, objects, fields))
    ([], [], [])

/-- `.eq('connection_id', cid).eq('name', n).single()`: PostgREST `.single()` succeeds
only when exactly one row matches. -/
def findSingleSchemaRow (l : List SchemaRow) (cid : Nat) (n : String) : Option SchemaRow :=
  match l.filter (schemaKeyIs cid n) with
  | [r] => some r
  | _ => none

/-- `.from('data_source_objects').select('id').eq('name', n).single()` — note the
lookup filters on the name only, with no schema restriction. -/
def findSingleObjectByName (l : List ObjectRow) (n : String) : Option ObjectRow :=
  match l.filter (fun r => r.name == n) with
  | [r] => some r
  | _ => none

/-- The schema loop of `storeSchemaData` (lines 215-219). -/
def storeBasicSchemas (cid : Nat) : List (String × BasicSchemaEntry) → Store → Store
  | [], st => st
  | (_, e) :: rest, st =>
    storeBasicSchemas cid rest (upsertSchemaRow st cid e.name e.stype e.description e.metadata).1

/-- The object loop of `storeSchemaData` (lines 222-241): the object is written only
when the schema lookup succeeds; no `row_count` property is sent. -/
def storeBasicObjects (cid : Nat) : List (String × BasicObjectEntry) → Store → Store
  | [], st => st
  | (_, o) :: rest, st =>
    match findSingleSchemaRow st.schemas cid o.schema_name with
    | some s =>
      storeBasicObjects cid rest
        (upsertObjectRow st s.id o.name o.otype o.description .undefined o.metadata).1
    | none => storeBasicObjects cid rest st

/-- The field loop of `storeSchemaData` (lines 244-262).  The upsert payload names a
`default_value` column that `data_source_fields` does not have (see
`setup-supabase.sql`), so PostgREST rejects each of these upserts with a schema-cache
error; the code discards the result, leaving the store unchanged. -/
def storeBasicFields : List BasicFieldEntry → Store → Store
  | [], st => st
  | f :: rest, st =>
    match findSingleObjectByName st.objects f.object_name with
    | some _ => storeBasicFields rest st
    | none => storeBasicFields rest st

/-- `storeSchemaData(connectionId, schemaData, dataSourceType)` of `schema-sync.js`,
applied to an array of row objects. -/
def storeSchemaData (cid : Nat) (rows : List SchemaDataRow) (dsType : String)
    (st : Store) : Store :=
  let g := groupSchemaData cid dsType rows
  storeBasicFields g.2.2 (storeBasicObjects cid g.2.1 (storeBasicSchemas cid g.1 st))

/-- The ClickHouse `system.columns` query of `syncSchemaViaMCP` (whitespace
normalized). -/
def chBasicSql (database : String) : String :=
  "SELECT database, table, name as column_name, type as data_type, " ++
  "default_expression as default_value FROM system.columns WHERE database = '" ++
  database ++ "' ORDER BY database, table, position"

/-- The MySQL `INFORMATION_SCHEMA` query of `syncSchemaViaMCP`. -/
def mysqlBasicSql (database : String) : String :=
  "SELECT TABLE_SCHEMA as database, TABLE_NAME as table, COLUMN_NAME as column_name, " ++
  "DATA_TYPE as data_type, COLUMN_DEFAULT as default_value " ++
  "FROM INFORMATION_SCHEMA.COLUMNS WHERE TABLE_SCHEMA = '" ++ database ++
  "' ORDER BY TABLE_SCHEMA, TABLE_NAME, ORDINAL_POSITION"

/-- The PostgreSQL `information_schema` query of `syncSchemaViaMCP`. -/
def pgBasicSql (database : String) : String :=
  "SELECT table_schema as database, table_name as table, column_name, data_type, " ++
  "column_default as default_value FROM information_schema.columns " ++
  "WHERE table_schema = '" ++ database ++ "' ORDER BY table_schema, table_name, ordinal_position"

/-- The dialect `switch` of `syncSchemaViaMCP` (lines 93-138): builds the
introspection query or throws `Unsupported data source type: <type>`. -/
def basicSyncQuery (ctype : String) (config : Config) : Except String String :=
  match ctype with
  | "clickhouse" => .ok (chBasicSql (jsTemplateOpt (configGet config "database")))
  | "mysql" => .ok (mysqlBasicSql (jsTemplateOpt (configGet config "database")))
  | "postgresql" => .ok (pgBasicSql (jsOrDefault (configGet config "database") "public"))
  | _ => .error ("Unsupported data source type: " ++ ctype)

/-- `syncSchemaViaMCP(connection)`: any thrown error — the unsupported-type throw or
a gateway failure — is caught and rethrown as
`Failed to sync schema via MCP for <type>`; on success the gateway body
`mcpResponse.data` (its `{type, data}` fields) is returned. -/
def syncSchemaViaMCP (gw : Gateway) (conn : ConnectionRow) :
    Except String (String × List (List JsVal)) :=
  match basicSyncQuery conn.ctype conn.connection_config with
  | .error _ => .error ("Failed to sync schema via MCP for " ++ conn.ctype)
  | .ok q =>
    match gw { query := q, dstype := conn.ctype, config := conn.connection_config } with
    | .err _ => .error ("Failed to sync schema via MCP for " ++ conn.ctype)
    | .ok rtype rows => .ok (rtype, rows)

/-- `logSyncHistory`: inserts one `data_source_sync_history` row; `completed_at` is
set only on `'success'`. -/
def logSyncHistory (st : Store) (cid : Option Nat) (syncType status : String)
    (objectsSynced fieldsSynced : Nat) (errorMessage : Option String) : Store :=
  let row : SyncHistoryRow :=
    { id := st.nextId, connection_id := cid, sync_type := syncType, status := status,
      objects_synced := objectsSynced, fields_synced := fieldsSynced,
      error_message := errorMessage, completed := status == "success" }
  { st with nextId := st.nextId + 1, syncHistory := st.syncHistory ++ [row] }

/-- An HTTP response body produced by either handler. -/
inductive RespBody where
  | err (error : String) (details : Option String)
  | basicOk (message : String) (rtype : String) (rows : List (List JsVal))
  | enhancedOk (message : String) (connection_id : Nat) (databases tables columns : Nat)
  deriving DecidableEq, Repr

/-- A resolved handler response. -/
structure HandlerResp where
  statusCode : Nat
  body : RespBody
  deriving DecidableEq, Repr

/-- The parsed request body of `schema-sync.js` (`{connectionId}`); `none` models a
falsy `connectionId`. -/
structure BasicReq where
  connectionId : Option Nat
  deriving DecidableEq, Repr

/-- An incoming event for the basic handler; `body = none` models an absent/falsy
`event.body`, for which `JSON.parse` throws and the catch block skips the history
log. -/
structure BasicEvent where
  httpMethod : String
  body : Option BasicReq
  deriving DecidableEq, Repr

/-- The error text of the `storeSchemaData` step as invoked by the basic handler: the
handler passes `mcpResponse.data` — an object `{type, data}`, not an array — so
`schemaData.forEach` throws a `TypeError` that the function's `catch` converts to
`throw new Error('Failed to store schema data')` before any row is processed. -/
def basicStoreStepError : String := "Failed to store schema data"

/-- The `exports.handler` of `schema-sync.js`.  Returns the resolved response and the
final Supabase state. -/
def basicHandler (gw : Gateway) (st : Store) (ev : BasicEvent) : HandlerResp × Store :=
  if ev.httpMethod ≠ "POST" then (⟨405, .err "Method not allowed" none⟩, st)
  else
    match ev.body with
    | none => (⟨500, .err "Internal server error" none⟩, st)
    | some req =>
      match req.connectionId with
      | none => (⟨400, .err "Connection ID is required" none⟩, st)
      | some cid =>
        match st.connections.find? (fun c => c.id == cid) with
        | none => (⟨404, .err "Connection not found" none⟩, st)
        | some conn =>
          match syncSchemaViaMCP gw conn with
          | .error msg =>
            (⟨500, .err "Internal server error" none⟩,
             logSyncHistory st (some cid) "schema" "failed" 0 0 (some msg))
          | .ok _ =>
            -- the `storeSchemaData` call throws (see `basicStoreStepError`), so the
            -- 200 branch (lines 61-67) is never reached from here
            (⟨500, .err "Internal server error" none⟩,
             logSyncHistory st (some cid) "schema" "failed" 0 0 (some basicStoreStepError))

/-- The `connectionId` of the enhanced request body: the literal `'new'`, an existing
id, or anything for which the Supabase lookup fails (absent/unknown). -/
inductive ConnIdVal where
  | newConn
  | existing (id : Nat)
  | missing
  deriving DecidableEq, Repr

/-- The parsed enhanced request body
(`{connectionId, connection, aiAnalysisEnabled = true}`); an absent
`aiAnalysisEnabled` property (`none`) defaults to `true`. -/
structure EnhReq where
  connectionId : ConnIdVal
  connection : Option ConnInput
  aiAnalysisEnabled : Option Bool
  deriving DecidableEq, Repr

/-- An incoming event for the enhanced handler; `body = none` models an unparsable
body (`JSON.parse` throws into the outer catch). -/
structure EnhEvent where
  httpMethod : String
  body : Option EnhReq
  deriving DecidableEq, Repr

/-- The outcome of one enhanced-handler invocation: the resolved response, the final
Supabase state, and the Gemini requests issued. -/
structure EnhResult where
  resp : HandlerResp
  store : Store
  geminiCalls : List GeminiCall
  deriving DecidableEq, Repr

/-- The `module.exports` property `storeComprehensiveMetadata` of the enhanced sync
file.  The file assigns only `exports.handler` (line 314);
`storeComprehensiveMetadata` is a plain top-level function declaration (line 472) and
is never attached to the exports object, so inside the handler's arrow functions —
whose `this` is the CommonJS `module.exports` — `this.storeComprehensiveMetadata` is
`undefined`. -/
def exportsStoreComprehensiveMetadata : Option (Nat → Metadata → Store → Store) := none

/-- The V8 message of the `TypeError` raised by `await
this.storeComprehensiveMetadata(...)` when the property is `undefined`. -/
def storeStepTypeError : String := "this.storeComprehensiveMetadata is not a function"

/-- The job update of the success branch (lines 406-416): status `completed`,
`progress_percentage` 100, the extraction summary stored in `metadata`. -/
def jobMarkCompleted (st : Store) (jid : Nat) (md : Metadata) : Store :=
  let updated := st.jobs.map (fun j =>
    if j.id == jid then
      { j with status := "completed", progress_percentage := some 100, metadata := some md }
    else j)
  { st with jobs := updated }

/-- The job update of the failure branch (lines 441-450): status `failed` with the
captured error message. -/
def jobMarkFailed (st : Store) (jid : Nat) (msg : String) : Store :=
  let updated := st.jobs.map (fun j =>
    if j.id == jid then { j with status := "failed", error_message := some msg } else j)
  { st with jobs := updated }

/-- The `exports.handler` of the enhanced sync file (`part_007`, lines 314-470).
Connection-insert and job-insert errors (lines 356-362, 393-395) cannot occur in this
store model and their branches are elided; the job row is inserted with the SQL
default `progress_percentage = 0`. -/
def enhancedHandler (env : Env) (gw : Gateway) (gm : Gemini) (st : Store)
    (ev : EnhEvent) : EnhResult :=
  if ev.httpMethod ≠ "POST" then ⟨⟨405, .err "Method not allowed" none⟩, st, []⟩
  else
    match ev.body with
    | none => ⟨⟨500, .err "Internal server error" none⟩, st, []⟩
    | some req =>
      match req.connection with
      | none => ⟨⟨400, .err "Connection details are required" none⟩, st, []⟩
      | some conn =>
        let resolved : Option (Store × ConnectionRow) :=
          match req.connectionId with
          | .newConn =>
            let row : ConnectionRow :=
              { id := st.nextId, name := conn.name, ctype := conn.ctype,
                description := conn.description,
                connection_config := conn.connection_config,
                organization_id := "demo-org", created_by := "demo-user" }
            some ({ st with nextId := st.nextId + 1,
                            connections := st.connections ++ [row] }, row)
          | .existing i => (st.connections.find? (fun c => c.id == i)).map (fun r => (st, r))
          | .missing => none
        match resolved with
        | none => ⟨⟨404, .err "Connection not found" none⟩, st, []⟩
        | some (st1, record) =>
          let aiFlag := req.aiAnalysisEnabled.getD true
          let job : JobRow :=
            { id := st1.nextId, connection_id := record.id, status := "running",
              ai_analysis_enabled := aiFlag, progress_percentage := some 0,
              error_message := none, metadata := none }
          let st2 := { st1 with nextId := st1.nextId + 1, jobs := st1.jobs ++ [job] }
          let enabled := envTruthy env.geminiApiKey
          let ext := extractComprehensiveMetadata enabled gw gm conn
          match exportsStoreComprehensiveMetadata with
          | some storeFn =>
            let st3 := storeFn record.id ext.1 st2
            let st4 := jobMarkCompleted st3 job.id ext.1
            ⟨⟨200, .enhancedOk "Comprehensive metadata extraction completed successfully"
                record.id (summaryDatabases ext.1) (summaryTables ext.1)
                (summaryColumns ext.1)⟩, st4, ext.2⟩
          | none =>
            let st3 := jobMarkFailed st2 job.id storeStepTypeError
            ⟨⟨500, .err "Metadata extraction failed" (some storeStepTypeError)⟩, st3, ext.2⟩

/-! ### Lemmas about the store primitives -/

theorem find_map_comm {α : Type} (l : List α) (p : α → Bool) (g : α → α)
    (hk : ∀ x, p (g x) = p x) : (l.map g).find? p = (l.find? p).map g := by
  induction l with
  | nil => rfl
  | cons a t ih =>
    by_cases h : p a = true
    · simp [List.find?, hk, h]
    · simp only [Bool.not_eq_true] at h
      simp [List.find?, hk, h, ih]

theorem filter_map_comm {α : Type} (l : List α) (p : α → Bool) (g : α → α)
    (hk : ∀ x, p (g x) = p x) : (l.map g).filter p = (l.filter p).map g := by
  induction l with
  | nil => rfl
  | cons a t ih =>
    by_cases h : p a = true
    · simp [List.filter, hk, h, ih]
    · simp only [Bool.not_eq_true] at h
      simp [List.filter, hk, h, ih]

theorem find_append_some {α : Type} (l₁ l₂ : List α) (p : α → Bool) (x : α)
    (h : l₁.find? p = some x) : (l₁ ++ l₂).find? p = some x := by
  simp [List.find?_append, h]

theorem find_append_none {α : Type} (l₁ l₂ : List α) (p : α → Bool)
    (h : l₁.find? p = none) : (l₁ ++ l₂).find? p = l₂.find? p := by
  simp [List.find?_append, h]

/-- The first row's id under a `(connection_id, name)` schema key. -/
def sidOf (st : Store) (cid : Nat) (n : String) : Option Nat :=
  (findSchemaRow st.schemas cid n).map (·.id)

/-- The first row's id under a `(schema_id, name)` object key. -/
def oidOf (st : Store) (sid : Nat) (n : String) : Option Nat :=
  (findObjectRow st.objects sid n).map (·.id)

/-- Presence of a `(object_id, name)` field key. -/
def hasFieldKey (st : Store) (oid : Nat) (n : JsVal) : Bool :=
  (findFieldRow st.fields oid n).isSome

/-- The id delivered by a `.single()` schema lookup (exactly one key match). -/
def singleSidOf (st : Store) (cid : Nat) (n : String) : Option Nat :=
  (findSingleSchemaRow st.schemas cid n).map (·.id)

theorem updateSchemaRow_key (stype d : String) (md : MetaBlob) (c : Nat) (n : String)
    (x : SchemaRow) : schemaKeyIs c n (updateSchemaRow stype d md x) = schemaKeyIs c n x := rfl

theorem updateSchemaRow_id (stype d : String) (md : MetaBlob) (x : SchemaRow) :
    (updateSchemaRow stype d md x).id = x.id := rfl

theorem updateObjectRow_key (ot d : String) (rc : JsVal) (md : MetaBlob) (s : Nat)
    (n : String) (x : ObjectRow) :
    objectKeyIs s n (updateObjectRow ot d rc md x) = objectKeyIs s n x := rfl

theorem updateObjectRow_id (ot d : String) (rc : JsVal) (md : MetaBlob) (x : ObjectRow) :
    (updateObjectRow ot d rc md x).id = x.id := rfl

theorem updateFieldRow_key (p : FieldPayload) (oid : Nat) (n : JsVal) (x : FieldRow) :
    fieldKeyIs oid n (updateFieldRow p x) = fieldKeyIs oid n x := rfl

/-! Component invariance of the three upserts. -/

theorem upsertSchemaRow_objects (st : Store) (cid : Nat) (n stype d : String)
    (md : MetaBlob) : (upsertSchemaRow st cid n stype d md).1.objects = st.objects := by
  unfold upsertSchemaRow
  cases findSchemaRow st.schemas cid n <;> rfl

theorem upsertSchemaRow_fields (st : Store) (cid : Nat) (n stype d : String)
    (md : MetaBlob) : (upsertSchemaRow st cid n stype d md).1.fields = st.fields := by
  unfold upsertSchemaRow
  cases findSchemaRow st.schemas cid n <;> rfl

theorem upsertSchemaRow_history (st : Store) (cid : Nat) (n stype d : String)
    (md : MetaBlob) : (upsertSchemaRow st cid n stype d md).1.history = st.history := by
  unfold upsertSchemaRow
  cases findSchemaRow st.schemas cid n <;> rfl

theorem upsertObjectRow_schemas (st : Store) (sid : Nat) (n ot d : String) (rc : JsVal)
    (md : MetaBlob) : (upsertObjectRow st sid n ot d rc md).1.schemas = st.schemas := by
  unfold upsertObjectRow
  cases findObjectRow st.objects sid n <;> rfl

theorem upsertObjectRow_fields (st : Store) (sid : Nat) (n ot d : String) (rc : JsVal)
    (md : MetaBlob) : (upsertObjectRow st sid n ot d rc md).1.fields = st.fields := by
  unfold upsertObjectRow
  cases findObjectRow st.objects sid n <;> rfl

theorem upsertObjectRow_history (st : Store) (sid : Nat) (n ot d : String) (rc : JsVal)
    (md : MetaBlob) : (upsertObjectRow st sid n ot d rc md).1.history = st.history := by
  unfold upsertObjectRow
  cases findObjectRow st.objects sid n <;> rfl

theorem upsertFieldRow_schemas (st : Store) (oid : Nat) (p : FieldPayload) :
    (upsertFieldRow st oid p).schemas = st.schemas := by
  unfold upsertFieldRow
  cases findFieldRow st.fields oid p.name <;> rfl

theorem upsertFieldRow_objects (st : Store) (oid : Nat) (p : FieldPayload) :
    (upsertFieldRow st oid p).objects = st.objects := by
  unfold upsertFieldRow
  cases findFieldRow st.fields oid p.name <;> rfl

theorem upsertFieldRow_history (st : Store) (oid : Nat) (p : FieldPayload) :
    (upsertFieldRow st oid p).history = st.history := by
  unfold upsertFieldRow
  cases findFieldRow st.fields oid p.name <;> rfl

/-! Key preservation and establishment for the three upserts. -/

theorem schemaUpd_key (cid : Nat) (n stype d : String) (md : MetaBlob) (c₂ : Nat)
    (n₂ : String) (x : SchemaRow) :
    schemaKeyIs c₂ n₂ (if schemaKeyIs cid n x = true then updateSchemaRow stype d md x else x) =
      schemaKeyIs c₂ n₂ x := by
  by_cases hx : schemaKeyIs cid n x = true <;> simp [hx, updateSchemaRow_key]

theorem schemaUpd_id (cid : Nat) (n stype d : String) (md : MetaBlob) (x : SchemaRow) :
    (if schemaKeyIs cid n x = true then updateSchemaRow stype d md x else x).id = x.id := by
  by_cases hx : schemaKeyIs cid n x = true <;> simp [hx, updateSchemaRow_id]

theorem sidOf_upsertSchemaRow (st : Store) (cid : Nat) (n stype d : String)
    (md : MetaBlob) (c₂ : Nat) (n₂ : String) (i : Nat) (h : sidOf st c₂ n₂ = some i) :
    sidOf (upsertSchemaRow st cid n stype d md).1 c₂ n₂ = some i := by
  unfold sidOf findSchemaRow at h ⊢
  unfold upsertSchemaRow
  cases hf : findSchemaRow st.schemas cid n with
  | some r =>
    simp only
    rw [find_map_comm _ _ _ (fun x => schemaUpd_key cid n stype d md c₂ n₂ x)]
    cases hx : st.schemas.find? (schemaKeyIs c₂ n₂) with
    | none => rw [hx] at h; simp at h
    | some x =>
      rw [hx] at h
      simpa [schemaUpd_id] using h
  | none =>
    simp only
    cases hx : st.schemas.find? (schemaKeyIs c₂ n₂) with
    | none => rw [hx] at h; simp at h
    | some x =>
      rw [find_append_some _ _ _ _ hx]
      rw [hx] at h
      exact h

theorem sidOf_upsertSchemaRow_self_hit (st : Store) (cid : Nat) (n stype d : String)
    (md : MetaBlob) (i : Nat) (h : sidOf st cid n = some i) :
    (upsertSchemaRow st cid n stype d md).2.id = i := by
  unfold sidOf at h
  unfold upsertSchemaRow
  cases hf : findSchemaRow st.schemas cid n with
  | some r =>
    simp only
    rw [hf] at h
    simp only [Option.map_some'] at h
    simpa [updateSchemaRow_id] using h
  | none => rw [hf] at h; simp at h

theorem sidOf_upsertSchemaRow_self (st : Store) (cid : Nat) (n stype d : String)
    (md : MetaBlob) :
    sidOf (upsertSchemaRow st cid n stype d md).1 cid n =
      some (upsertSchemaRow st cid n stype d md).2.id := by
  unfold sidOf findSchemaRow
  unfold upsertSchemaRow
  cases hf : findSchemaRow st.schemas cid n with
  | some r =>
    simp only
    rw [find_map_comm _ _ _ (fun x => schemaUpd_key cid n stype d md cid n x)]
    unfold findSchemaRow at hf
    rw [hf]
    simp [List.find?_some hf]
  | none =>
    simp only
    unfold findSchemaRow at hf
    rw [find_append_none _ _ _ hf]
    simp [List.find?, schemaKeyIs]

theorem schemas_length_upsertSchemaRow_hit (st : Store) (cid : Nat) (n stype d : String)
    (md : MetaBlob) (h : (findSchemaRow st.schemas cid n).isSome) :
    (upsertSchemaRow st cid n stype d md).1.schemas.length = st.schemas.length := by
  unfold upsertSchemaRow
  cases hf : findSchemaRow st.schemas cid n with
  | some r => simp
  | none => rw [hf] at h; simp at h

theorem objectUpd_key (sid : Nat) (n ot d : String) (rc : JsVal) (md : MetaBlob)
    (s₂ : Nat) (n₂ : String) (x : ObjectRow) :
    objectKeyIs s₂ n₂ (if objectKeyIs sid n x = true then updateObjectRow ot d rc md x else x) =
      objectKeyIs s₂ n₂ x := by
  by_cases hx : objectKeyIs sid n x = true <;> simp [hx, updateObjectRow_key]

theorem objectUpd_id (sid : Nat) (n ot d : String) (rc : JsVal) (md : MetaBlob)
    (x : ObjectRow) :
    (if objectKeyIs sid n x = true then updateObjectRow ot d rc md x else x).id = x.id := by
  by_cases hx : objectKeyIs sid n x = true <;> simp [hx, updateObjectRow_id]

theorem oidOf_upsertObjectRow (st : Store) (sid : Nat) (n ot d : String) (rc : JsVal)
    (md : MetaBlob) (s₂ : Nat) (n₂ : String) (i : Nat) (h : oidOf st s₂ n₂ = some i) :
    oidOf (upsertObjectRow st sid n ot d rc md).1 s₂ n₂ = some i := by
  unfold oidOf findObjectRow at h ⊢
  unfold upsertObjectRow
  cases hf : findObjectRow st.objects sid n with
  | some r =>
    simp only
    rw [find_map_comm _ _ _ (fun x => objectUpd_key sid n ot d rc md s₂ n₂ x)]
    cases hx : st.objects.find? (objectKeyIs s₂ n₂) with
    | none => rw [hx] at h; simp at h
    | some x =>
      rw [hx] at h
      simpa [objectUpd_id] using h
  | none =>
    simp only
    cases hx : st.objects.find? (objectKeyIs s₂ n₂) with
    | none => rw [hx] at h; simp at h
    | some x =>
      rw [find_append_some _ _ _ _ hx]
      rw [hx] at h
      exact h

theorem oidOf_upsertObjectRow_self_hit (st : Store) (sid : Nat) (n ot d : String)
    (rc : JsVal) (md : MetaBlob) (i : Nat) (h : oidOf st sid n = some i) :
    (upsertObjectRow st sid n ot d rc md).2.id = i := by
  unfold oidOf at h
  unfold upsertObjectRow
  cases hf : findObjectRow st.objects sid n with
  | some r =>
    simp only
    rw [hf] at h
    simp only [Option.map_some'] at h
    simpa [updateObjectRow_id] using h
  | none => rw [hf] at h; simp at h

theorem oidOf_upsertObjectRow_self (st : Store) (sid : Nat) (n ot d : String)
    (rc : JsVal) (md : MetaBlob) :
    oidOf (upsertObjectRow st sid n ot d rc md).1 sid n =
      some (upsertObjectRow st sid n ot d rc md).2.id := by
  unfold oidOf findObjectRow
  unfold upsertObjectRow
  cases hf : findObjectRow st.objects sid n with
  | some r =>
    simp only
    rw [find_map_comm _ _ _ (fun x => objectUpd_key sid n ot d rc md sid n x)]
    unfold findObjectRow at hf
    rw [hf]
    simp [List.find?_some hf]
  | none =>
    simp only
    unfold findObjectRow at hf
    rw [find_append_none _ _ _ hf]
    simp [List.find?, objectKeyIs]

theorem objects_length_upsertObjectRow_hit (st : Store) (sid : Nat) (n ot d : String)
    (rc : JsVal) (md : MetaBlob) (h : (findObjectRow st.objects sid n).isSome) :
    (upsertObjectRow st sid n ot d rc md).1.objects.length = st.objects.length := by
  unfold upsertObjectRow
  cases hf : findObjectRow st.objects sid n with
  | some r => simp
  | none => rw [hf] at h; simp at h

theorem fieldUpd_key (oid : Nat) (p : FieldPayload) (o₂ : Nat) (n₂ : JsVal)
    (x : FieldRow) :
    fieldKeyIs o₂ n₂ (if fieldKeyIs oid p.name x = true then updateFieldRow p x else x) =
      fieldKeyIs o₂ n₂ x := by
  by_cases hx : fieldKeyIs oid p.name x = true <;> simp [hx, updateFieldRow_key]

theorem hasFieldKey_upsertFieldRow (st : Store) (oid : Nat) (p : FieldPayload)
    (o₂ : Nat) (n₂ : JsVal) (h : hasFieldKey st o₂ n₂ = true) :
    hasFieldKey (upsertFieldRow st oid p) o₂ n₂ = true := by
  unfold hasFieldKey findFieldRow at h ⊢
  unfold upsertFieldRow
  cases hf : findFieldRow st.fields oid p.name with
  | some r =>
    simp only
    rw [find_map_comm _ _ _ (fun x => fieldUpd_key oid p o₂ n₂ x)]
    cases hx : st.fields.find? (fieldKeyIs o₂ n₂) with
    | none => rw [hx] at h; simp at h
    | some x => simp [hx]
  | none =>
    simp only
    cases hx : st.fields.find? (fieldKeyIs o₂ n₂) with
    | none => rw [hx] at h; simp at h
    | some x => rw [find_append_some _ _ _ _ hx]; rfl

theorem hasFieldKey_upsertFieldRow_self (st : Store) (oid : Nat) (p : FieldPayload) :
    hasFieldKey (upsertFieldRow st oid p) oid p.name = true := by
  unfold hasFieldKey findFieldRow
  unfold upsertFieldRow
  cases hf : findFieldRow st.fields oid p.name with
  | some r =>
    simp only
    rw [find_map_comm _ _ _ (fun x => fieldUpd_key oid p oid p.name x)]
    unfold findFieldRow at hf
    rw [hf]
    rfl
  | none =>
    simp only
    unfold findFieldRow at hf
    rw [find_append_none _ _ _ hf]
    simp [List.find?, fieldKeyIs]

theorem fields_length_upsertFieldRow_hit (st : Store) (oid : Nat) (p : FieldPayload)
    (h : hasFieldKey st oid p.name = true) :
    (upsertFieldRow st oid p).fields.length = st.fields.length := by
  unfold hasFieldKey at h
  unfold upsertFieldRow
  cases hf : findFieldRow st.fields oid p.name with
  | some r => simp
  | none => rw [hf] at h; simp at h

/-- All key facts (schema ids, object ids, field presence) survive a store step. -/
def factsPres (st st₂ : Store) : Prop :=
  (∀ c n i, sidOf st c n = some i → sidOf st₂ c n = some i) ∧
  (∀ s n i, oidOf st s n = some i → oidOf st₂ s n = some i) ∧
  (∀ o n, hasFieldKey st o n = true → hasFieldKey st₂ o n = true)

theorem factsPres_refl (st : Store) : factsPres st st :=
  ⟨fun _ _ _ h => h, fun _ _ _ h => h, fun _ _ h => h⟩

theorem factsPres_trans {st₁ st₂ st₃ : Store} (h₁ : factsPres st₁ st₂)
    (h₂ : factsPres st₂ st₃) : factsPres st₁ st₃ :=
  ⟨fun c n i h => h₂.1 c n i (h₁.1 c n i h),
   fun s n i h => h₂.2.1 s n i (h₁.2.1 s n i h),
   fun o n h => h₂.2.2 o n (h₁.2.2 o n h)⟩

theorem factsPres_upsertSchemaRow (st : Store) (cid : Nat) (n stype d : String)
    (md : MetaBlob) : factsPres st (upsertSchemaRow st cid n stype d md).1 := by
  refine ⟨fun c₂ n₂ i h => sidOf_upsertSchemaRow st cid n stype d md c₂ n₂ i h,
          fun s₂ n₂ i h => ?_, fun o₂ n₂ h => ?_⟩
  · unfold oidOf findObjectRow at h ⊢
    rw [upsertSchemaRow_objects]
    exact h
  · unfold hasFieldKey findFieldRow at h ⊢
    rw [upsertSchemaRow_fields]
    exact h

theorem factsPres_upsertObjectRow (st : Store) (sid : Nat) (n ot d : String)
    (rc : JsVal) (md : MetaBlob) : factsPres st (upsertObjectRow st sid n ot d rc md).1 := by
  refine ⟨fun c₂ n₂ i h => ?_,
          fun s₂ n₂ i h => oidOf_upsertObjectRow st sid n ot d rc md s₂ n₂ i h,
          fun o₂ n₂ h => ?_⟩
  · unfold sidOf findSchemaRow at h ⊢
    rw [upsertObjectRow_schemas]
    exact h
  · unfold hasFieldKey findFieldRow at h ⊢
    rw [upsertObjectRow_fields]
    exact h

theorem factsPres_upsertFieldRow (st : Store) (oid : Nat) (p : FieldPayload) :
    factsPres st (upsertFieldRow st oid p) := by
  refine ⟨fun c₂ n₂ i h => ?_, fun s₂ n₂ i h => ?_,
          fun o₂ n₂ h => hasFieldKey_upsertFieldRow st oid p o₂ n₂ h⟩
  · unfold sidOf findSchemaRow at h ⊢
    rw [upsertFieldRow_schemas]
    exact h
  · unfold oidOf findObjectRow at h ⊢
    rw [upsertFieldRow_objects]
    exact h

/-! Lifting through the loops of `storeComprehensiveMetadata`. -/

theorem factsPres_storeFields (oid : Nat) (cols : List Column) (st : Store) :
    factsPres st (storeFields oid cols st) := by
  induction cols generalizing st with
  | nil => exact factsPres_refl st
  | cons c rest ih =>
    exact factsPres_trans (factsPres_upsertFieldRow st oid (fieldPayload c)) (ih _)

theorem factsPres_storeTables (sid : Nat) (tables : List (String × TableEntry))
    (st : Store) : factsPres st (storeTables sid tables st) := by
  induction tables generalizing st with
  | nil => exact factsPres_refl st
  | cons t rest ih =>
    exact factsPres_trans
      (factsPres_trans
        (factsPres_upsertObjectRow st sid t.1 "table" ("Table: " ++ t.1) .null
          (.tableInfo t.2))
        (factsPres_storeFields _ _ _))
      (ih _)

theorem factsPres_storeSchemaEntries (sid : Nat) (schemas : List (String × SchemaEntry))
    (st : Store) : factsPres st (storeSchemaEntries sid schemas st) := by
  induction schemas generalizing st with
  | nil => exact factsPres_refl st
  | cons s rest ih =>
    exact factsPres_trans (factsPres_storeTables sid s.2.tables st) (ih _)

theorem factsPres_storeDatabases (cid : Nat) (dbs : List (String × DbEntry))
    (st : Store) : factsPres st (storeDatabases cid dbs st) := by
  induction dbs generalizing st with
  | nil => exact factsPres_refl st
  | cons de rest ih =>
    exact factsPres_trans
      (factsPres_trans
        (factsPres_upsertSchemaRow st cid de.1 "database" ("Database: " ++ de.1)
          (.dbInfo de.2))
        (factsPres_storeSchemaEntries _ _ _))
      (ih _)

/-- All object keys of a table list are present, with all their field keys. -/
def ContainsTables (st : Store) (sid : Nat) (tables : List (String × TableEntry)) : Prop :=
  ∀ t ∈ tables, ∃ oid, oidOf st sid t.1 = some oid ∧
    ∀ c ∈ t.2.columns, hasFieldKey st oid c.name = true

/-- All schema keys of a metadata tree are present, with all their objects and
fields. -/
def ContainsDbs (st : Store) (cid : Nat) (dbs : List (String × DbEntry)) : Prop :=
  ∀ de ∈ dbs, ∃ sid, sidOf st cid de.1 = some sid ∧
    ∀ s ∈ de.2.schemas, ContainsTables st sid s.2.tables

theorem ContainsTables_mono {st st₂ : Store} {sid : Nat}
    {tables : List (String × TableEntry)} (h : ContainsTables st sid tables)
    (hp : factsPres st st₂) : ContainsTables st₂ sid tables := by
  intro t ht
  obtain ⟨oid, h₁, h₂⟩ := h t ht
  exact ⟨oid, hp.2.1 _ _ _ h₁, fun c hc => hp.2.2 _ _ (h₂ c hc)⟩

theorem ContainsDbs_mono {st st₂ : Store} {cid : Nat} {dbs : List (String × DbEntry)}
    (h : ContainsDbs st cid dbs) (hp : factsPres st st₂) : ContainsDbs st₂ cid dbs := by
  intro de hde
  obtain ⟨sid, h₁, h₂⟩ := h de hde
  exact ⟨sid, hp.1 _ _ _ h₁, fun s hs => ContainsTables_mono (h₂ s hs) hp⟩

/-! Establishment: after a run, every key of the stored metadata is present. -/

theorem storeFields_est (oid : Nat) (cols : List Column) (st : Store) :
    ∀ c ∈ cols, hasFieldKey (storeFields oid cols st) oid c.name = true := by
  induction cols generalizing st with
  | nil => intro c hc; cases hc
  | cons c₀ rest ih =>
    intro c hc
    cases hc with
    | head =>
      exact (factsPres_storeFields oid rest _).2.2 _ _
        (hasFieldKey_upsertFieldRow_self st oid (fieldPayload c₀))
    | tail _ hr => exact ih _ c hr

theorem storeTables_est (sid : Nat) (tables : List (String × TableEntry)) (st : Store) :
    ContainsTables (storeTables sid tables st) sid tables := by
  induction tables generalizing st with
  | nil => intro t ht; cases ht
  | cons t₀ rest ih =>
    intro t ht
    cases ht with
    | head =>
      refine ⟨(upsertObjectRow st sid t₀.1 "table" ("Table: " ++ t₀.1) .null
        (.tableInfo t₀.2)).2.id, ?_, ?_⟩
      · exact (factsPres_trans (factsPres_storeFields _ _ _)
          (factsPres_storeTables sid rest _)).2.1 _ _ _
          (oidOf_upsertObjectRow_self st sid t₀.1 "table" ("Table: " ++ t₀.1) .null
            (.tableInfo t₀.2))
      · intro c hc
        exact (factsPres_storeTables sid rest _).2.2 _ _
          (storeFields_est _ t₀.2.columns _ c hc)
    | tail _ hr =>
      exact ih _ t hr

theorem storeSchemaEntries_est (sid : Nat) (schemas : List (String × SchemaEntry))
    (st : Store) :
    ∀ s ∈ schemas, ContainsTables (storeSchemaEntries sid schemas st) sid s.2.tables := by
  induction schemas generalizing st with
  | nil => intro s hs; cases hs
  | cons s₀ rest ih =>
    intro s hs
    cases hs with
    | head =>
      exact ContainsTables_mono (storeTables_est sid s₀.2.tables st)
        (factsPres_storeSchemaEntries sid rest _)
    | tail _ hr => exact ih _ s hr

theorem storeDatabases_est (cid : Nat) (dbs : List (String × DbEntry)) (st : Store) :
    ContainsDbs (storeDatabases cid dbs st) cid dbs := by
  induction dbs generalizing st with
  | nil => intro de hde; cases hde
  | cons de₀ rest ih =>
    intro de hde
    cases hde with
    | head =>
      refine ⟨(upsertSchemaRow st cid de₀.1 "database" ("Database: " ++ de₀.1)
        (.dbInfo de₀.2)).2.id, ?_, ?_⟩
      · exact (factsPres_trans (factsPres_storeSchemaEntries _ _ _)
          (factsPres_storeDatabases cid rest _)).1 _ _ _
          (sidOf_upsertSchemaRow_self st cid de₀.1 "database" ("Database: " ++ de₀.1)
            (.dbInfo de₀.2))
      · intro s hs
        exact ContainsTables_mono
          (storeSchemaEntries_est _ de₀.2.schemas _ s hs)
          (factsPres_storeDatabases cid rest _)
    | tail _ hr => exact ih _ de hr

/-- Row counts of the three metadata tables are unchanged. -/
def lensEq (st st₂ : Store) : Prop :=
  st₂.schemas.length = st.schemas.length ∧ st₂.objects.length = st.objects.length ∧
  st₂.fields.length = st.fields.length

theorem lensEq_refl (st : Store) : lensEq st st := ⟨rfl, rfl, rfl⟩

theorem lensEq_trans {st₁ st₂ st₃ : Store} (h₁ : lensEq st₁ st₂) (h₂ : lensEq st₂ st₃) :
    lensEq st₁ st₃ :=
  ⟨h₂.1.trans h₁.1, h₂.2.1.trans h₁.2.1, h₂.2.2.trans h₁.2.2⟩

theorem lensEq_upsertFieldRow_hit (st : Store) (oid : Nat) (p : FieldPayload)
    (h : hasFieldKey st oid p.name = true) : lensEq st (upsertFieldRow st oid p) :=
  ⟨by rw [upsertFieldRow_schemas], by rw [upsertFieldRow_objects],
   fields_length_upsertFieldRow_hit st oid p h⟩

theorem lensEq_upsertObjectRow_hit (st : Store) (sid : Nat) (n ot d : String)
    (rc : JsVal) (md : MetaBlob) (h : (findObjectRow st.objects sid n).isSome) :
    lensEq st (upsertObjectRow st sid n ot d rc md).1 :=
  ⟨by rw [upsertObjectRow_schemas], objects_length_upsertObjectRow_hit st sid n ot d rc md h,
   by rw [upsertObjectRow_fields]⟩

theorem lensEq_upsertSchemaRow_hit (st : Store) (cid : Nat) (n stype d : String)
    (md : MetaBlob) (h : (findSchemaRow st.schemas cid n).isSome) :
    lensEq st (upsertSchemaRow st cid n stype d md).1 :=
  ⟨schemas_length_upsertSchemaRow_hit st cid n stype d md h,
   by rw [upsertSchemaRow_objects], by rw [upsertSchemaRow_fields]⟩

theorem storeFields_stable (oid : Nat) (cols : List Column) (st : Store)
    (h : ∀ c ∈ cols, hasFieldKey st oid c.name = true) :
    lensEq st (storeFields oid cols st) := by
  induction cols generalizing st with
  | nil => exact lensEq_refl st
  | cons c rest ih =>
    refine lensEq_trans
      (lensEq_upsertFieldRow_hit st oid (fieldPayload c) (h c (List.mem_cons_self c rest)))
      (ih _ ?_)
    intro c₂ hc₂
    exact (factsPres_upsertFieldRow st oid (fieldPayload c)).2.2 _ _
      (h c₂ (List.mem_cons_of_mem c hc₂))

theorem storeTables_stable (sid : Nat) (tables : List (String × TableEntry)) (st : Store)
    (h : ContainsTables st sid tables) : lensEq st (storeTables sid tables st) := by
  induction tables generalizing st with
  | nil => exact lensEq_refl st
  | cons t rest ih =>
    obtain ⟨oid, hoid, hfields⟩ := h t (List.mem_cons_self t rest)
    have hsome : (findObjectRow st.objects sid t.1).isSome := by
      unfold oidOf at hoid
      cases hx : findObjectRow st.objects sid t.1 with
      | none => rw [hx] at hoid; simp at hoid
      | some _ => rfl
    have hid : (upsertObjectRow st sid t.1 "table" ("Table: " ++ t.1) .null
        (.tableInfo t.2)).2.id = oid :=
      oidOf_upsertObjectRow_self_hit st sid t.1 "table" ("Table: " ++ t.1) .null
        (.tableInfo t.2) oid hoid
    refine lensEq_trans
      (lensEq_upsertObjectRow_hit st sid t.1 "table" ("Table: " ++ t.1) .null
        (.tableInfo t.2) hsome) ?_
    refine lensEq_trans (storeFields_stable _ t.2.columns _ ?_) (ih _ ?_)
    · intro c hc
      rw [hid]
      exact (factsPres_upsertObjectRow st sid t.1 "table" ("Table: " ++ t.1) .null
        (.tableInfo t.2)).2.2 _ _ (hfields c hc)
    · intro t₂ ht₂
      have h₂ := h t₂ (List.mem_cons_of_mem t ht₂)
      exact (ContainsTables_mono (fun x hx => h x (List.mem_cons_of_mem t hx))
        (factsPres_trans
          (factsPres_upsertObjectRow st sid t.1 "table" ("Table: " ++ t.1) .null
            (.tableInfo t.2))
          (factsPres_storeFields _ _ _))) t₂ ht₂

theorem storeSchemaEntries_stable (sid : Nat) (schemas : List (String × SchemaEntry))
    (st : Store) (h : ∀ s ∈ schemas, ContainsTables st sid s.2.tables) :
    lensEq st (storeSchemaEntries sid schemas st) := by
  induction schemas generalizing st with
  | nil => exact lensEq_refl st
  | cons s rest ih =>
    refine lensEq_trans
      (storeTables_stable sid s.2.tables st (h s (List.mem_cons_self s rest)))
      (ih _ ?_)
    intro s₂ hs₂
    exact ContainsTables_mono (h s₂ (List.mem_cons_of_mem s hs₂))
      (factsPres_storeTables sid s.2.tables st)

theorem storeDatabases_stable (cid : Nat) (dbs : List (String × DbEntry)) (st : Store)
    (h : ContainsDbs st cid dbs) : lensEq st (storeDatabases cid dbs st) := by
  induction dbs generalizing st with
  | nil => exact lensEq_refl st
  | cons de rest ih =>
    obtain ⟨sid, hsid, hentries⟩ := h de (List.mem_cons_self de rest)
    have hsome : (findSchemaRow st.schemas cid de.1).isSome := by
      unfold sidOf at hsid
      cases hx : findSchemaRow st.schemas cid de.1 with
      | none => rw [hx] at hsid; simp at hsid
      | some _ => rfl
    have hid : (upsertSchemaRow st cid de.1 "database" ("Database: " ++ de.1)
        (.dbInfo de.2)).2.id = sid :=
      sidOf_upsertSchemaRow_self_hit st cid de.1 "database" ("Database: " ++ de.1)
        (.dbInfo de.2) sid hsid
    refine lensEq_trans
      (lensEq_upsertSchemaRow_hit st cid de.1 "database" ("Database: " ++ de.1)
        (.dbInfo de.2) hsome) ?_
    refine lensEq_trans (storeSchemaEntries_stable _ de.2.schemas _ ?_) (ih _ ?_)
    · intro s hs
      rw [hid]
      exact ContainsTables_mono (hentries s hs)
        (factsPres_upsertSchemaRow st cid de.1 "database" ("Database: " ++ de.1)
          (.dbInfo de.2))
    · intro de₂ hde₂
      exact (ContainsDbs_mono (fun x hx => h x (List.mem_cons_of_mem de hx))
        (factsPres_trans
          (factsPres_upsertSchemaRow st cid de.1 "database" ("Database: " ++ de.1)
            (.dbInfo de.2))
          (factsPres_storeSchemaEntries _ _ _))) de₂ hde₂

theorem storeFields_history (oid : Nat) (cols : List Column) (st : Store) :
    (storeFields oid cols st).history = st.history := by
  induction cols generalizing st with
  | nil => rfl
  | cons c rest ih => rw [storeFields, ih, upsertFieldRow_history]

theorem storeTables_history (sid : Nat) (tables : List (String × TableEntry))
    (st : Store) : (storeTables sid tables st).history = st.history := by
  induction tables generalizing st with
  | nil => rfl
  | cons t rest ih =>
    rw [storeTables, ih, storeFields_history, upsertObjectRow_history]

theorem storeSchemaEntries_history (sid : Nat) (schemas : List (String × SchemaEntry))
    (st : Store) : (storeSchemaEntries sid schemas st).history = st.history := by
  induction schemas generalizing st with
  | nil => rfl
  | cons s rest ih => rw [storeSchemaEntries, ih, storeTables_history]

theorem storeDatabases_history (cid : Nat) (dbs : List (String × DbEntry)) (st : Store) :
    (storeDatabases cid dbs st).history = st.history := by
  induction dbs generalizing st with
  | nil => rfl
  | cons de rest ih =>
    rw [storeDatabases, ih, storeSchemaEntries_history, upsertSchemaRow_history]

/-! Lemmas for `storeSchemaData` (the basic writer). -/

theorem storeBasicFields_eq (fs : List BasicFieldEntry) (st : Store) :
    storeBasicFields fs st = st := by
  induction fs with
  | nil => rfl
  | cons f rest ih =>
    rw [storeBasicFields]
    cases findSingleObjectByName st.objects f.object_name <;> exact ih

theorem storeBasicSchemas_objects (cid : Nat) (l : List (String × BasicSchemaEntry))
    (st : Store) : (storeBasicSchemas cid l st).objects = st.objects := by
  induction l generalizing st with
  | nil => rfl
  | cons e rest ih => rw [storeBasicSchemas, ih, upsertSchemaRow_objects]

theorem storeBasicSchemas_fields (cid : Nat) (l : List (String × BasicSchemaEntry))
    (st : Store) : (storeBasicSchemas cid l st).fields = st.fields := by
  induction l generalizing st with
  | nil => rfl
  | cons e rest ih => rw [storeBasicSchemas, ih, upsertSchemaRow_fields]

theorem storeBasicSchemas_history (cid : Nat) (l : List (String × BasicSchemaEntry))
    (st : Store) : (storeBasicSchemas cid l st).history = st.history := by
  induction l generalizing st with
  | nil => rfl
  | cons e rest ih => rw [storeBasicSchemas, ih, upsertSchemaRow_history]

theorem storeBasicObjects_schemas (cid : Nat) (l : List (String × BasicObjectEntry))
    (st : Store) : (storeBasicObjects cid l st).schemas = st.schemas := by
  induction l generalizing st with
  | nil => rfl
  | cons o rest ih =>
    rw [storeBasicObjects]
    cases findSingleSchemaRow st.schemas cid o.2.schema_name with
    | some s => rw [ih, upsertObjectRow_schemas]
    | none => exact ih st

theorem storeBasicObjects_fields (cid : Nat) (l : List (String × BasicObjectEntry))
    (st : Store) : (storeBasicObjects cid l st).fields = st.fields := by
  induction l generalizing st with
  | nil => rfl
  | cons o rest ih =>
    rw [storeBasicObjects]
    cases findSingleSchemaRow st.schemas cid o.2.schema_name with
    | some s => rw [ih, upsertObjectRow_fields]
    | none => exact ih st

theorem storeBasicObjects_history (cid : Nat) (l : List (String × BasicObjectEntry))
    (st : Store) : (storeBasicObjects cid l st).history = st.history := by
  induction l generalizing st with
  | nil => rfl
  | cons o rest ih =>
    rw [storeBasicObjects]
    cases findSingleSchemaRow st.schemas cid o.2.schema_name with
    | some s => rw [ih, upsertObjectRow_history]
    | none => exact ih st

theorem sidOf_storeBasicSchemas (cid : Nat) (l : List (String × BasicSchemaEntry))
    (st : Store) (c : Nat) (n : String) (i : Nat) (h : sidOf st c n = some i) :
    sidOf (storeBasicSchemas cid l st) c n = some i := by
  induction l generalizing st with
  | nil => exact h
  | cons e rest ih =>
    exact ih _ (sidOf_upsertSchemaRow st cid e.2.name e.2.stype e.2.description
      e.2.metadata c n i h)

theorem storeBasicSchemas_est (cid : Nat) (l : List (String × BasicSchemaEntry))
    (st : Store) :
    ∀ p ∈ l, ∃ i, sidOf (storeBasicSchemas cid l st) cid p.2.name = some i := by
  induction l generalizing st with
  | nil => intro p hp; cases hp
  | cons e rest ih =>
    intro p hp
    cases hp with
    | head =>
      exact ⟨_, sidOf_storeBasicSchemas cid rest _ cid e.2.name _
        (sidOf_upsertSchemaRow_self st cid e.2.name e.2.stype e.2.description e.2.metadata)⟩
    | tail _ hr => exact ih _ p hr

/-- A key-hit schema upsert preserves every `.single()` schema lookup (same match
multiset up to an id-preserving in-place update). -/
theorem singleSidOf_upsertSchemaRow_hit (st : Store) (cid : Nat) (n stype d : String)
    (md : MetaBlob) (h : (findSchemaRow st.schemas cid n).isSome) (c₂ : Nat)
    (n₂ : String) :
    singleSidOf (upsertSchemaRow st cid n stype d md).1 c₂ n₂ = singleSidOf st c₂ n₂ := by
  unfold singleSidOf findSingleSchemaRow
  unfold upsertSchemaRow
  cases hf : findSchemaRow st.schemas cid n with
  | some r =>
    simp only
    rw [filter_map_comm _ _ _ (fun x => schemaUpd_key cid n stype d md c₂ n₂ x)]
    cases hx : st.schemas.filter (schemaKeyIs c₂ n₂) with
    | nil => rfl
    | cons a t =>
      cases t with
      | nil => simp [schemaUpd_id]
      | cons b t₂ => rfl
  | none => rw [hf] at h; simp at h

theorem storeBasicSchemas_stable (cid : Nat) (l : List (String × BasicSchemaEntry))
    (st : Store) (h : ∀ p ∈ l, ∃ i, sidOf st cid p.2.name = some i) :
    (storeBasicSchemas cid l st).schemas.length = st.schemas.length ∧
    ∀ c n, singleSidOf (storeBasicSchemas cid l st) c n = singleSidOf st c n := by
  induction l generalizing st with
  | nil => exact ⟨rfl, fun _ _ => rfl⟩
  | cons e rest ih =>
    obtain ⟨i, hi⟩ := h e (List.mem_cons_self e rest)
    have hsome : (findSchemaRow st.schemas cid e.2.name).isSome := by
      unfold sidOf at hi
      cases hx : findSchemaRow st.schemas cid e.2.name with
      | none => rw [hx] at hi; simp at hi
      | some _ => rfl
    have htail := ih (upsertSchemaRow st cid e.2.name e.2.stype e.2.description
      e.2.metadata).1 (fun p hp => by
        obtain ⟨j, hj⟩ := h p (List.mem_cons_of_mem e hp)
        exact ⟨j, sidOf_upsertSchemaRow st cid e.2.name e.2.stype e.2.description
          e.2.metadata cid p.2.name j hj⟩)
    refine ⟨?_, ?_⟩
    · rw [storeBasicSchemas, htail.1,
        schemas_length_upsertSchemaRow_hit st cid e.2.name e.2.stype e.2.description
          e.2.metadata hsome]
    · intro c n
      rw [storeBasicSchemas, htail.2 c n,
        singleSidOf_upsertSchemaRow_hit st cid e.2.name e.2.stype e.2.description
          e.2.metadata hsome c n]

theorem singleSidOf_upsertObjectRow (st : Store) (sid : Nat) (n ot d : String)
    (rc : JsVal) (md : MetaBlob) (c₂ : Nat) (n₂ : String) :
    singleSidOf (upsertObjectRow st sid n ot d rc md).1 c₂ n₂ = singleSidOf st c₂ n₂ := by
  unfold singleSidOf findSingleSchemaRow
  rw [upsertObjectRow_schemas]

theorem oidOf_storeBasicObjects_pres (cid : Nat) (l : List (String × BasicObjectEntry))
    (st : Store) (s : Nat) (n : String) (i : Nat) (h : oidOf st s n = some i) :
    oidOf (storeBasicObjects cid l st) s n = some i := by
  induction l generalizing st with
  | nil => exact h
  | cons o rest ih =>
    rw [storeBasicObjects]
    cases hf : findSingleSchemaRow st.schemas cid o.2.schema_name with
    | some sr =>
      exact ih _ (oidOf_upsertObjectRow st sr.id o.2.name o.2.otype o.2.description
        .undefined o.2.metadata s n i h)
    | none => exact ih _ h

theorem storeBasicObjects_est (cid : Nat) (l : List (String × BasicObjectEntry))
    (st : Store) :
    ∀ p ∈ l, ∀ sid, singleSidOf st cid p.2.schema_name = some sid →
      ∃ i, oidOf (storeBasicObjects cid l st) sid p.2.name = some i := by
  induction l generalizing st with
  | nil => intro p hp; cases hp
  | cons o rest ih =>
    intro p hp sid hsid
    cases hp with
    | head =>
      unfold singleSidOf at hsid
      cases hf : findSingleSchemaRow st.schemas cid o.2.schema_name with
      | none => rw [hf] at hsid; simp at hsid
      | some sr =>
        have hid : sr.id = sid := by rw [hf] at hsid; simpa using hsid
        rw [storeBasicObjects, hf]
        subst hid
        exact ⟨_, oidOf_storeBasicObjects_pres cid rest _ sr.id o.2.name _
          (oidOf_upsertObjectRow_self st sr.id o.2.name o.2.otype o.2.description
            .undefined o.2.metadata)⟩
    | tail _ hr =>
      rw [storeBasicObjects]
      cases hf : findSingleSchemaRow st.schemas cid o.2.schema_name with
      | some sr =>
        refine ih _ p hr sid ?_
        rw [singleSidOf_upsertObjectRow]
        exact hsid
      | none => exact ih _ p hr sid hsid

theorem storeBasicObjects_stable (cid : Nat) (l : List (String × BasicObjectEntry))
    (st : Store)
    (h : ∀ p ∈ l, ∀ sid, singleSidOf st cid p.2.schema_name = some sid →
      ∃ i, oidOf st sid p.2.name = some i) :
    (storeBasicObjects cid l st).objects.length = st.objects.length := by
  induction l generalizing st with
  | nil => rfl
  | cons o rest ih =>
    rw [storeBasicObjects]
    cases hf : findSingleSchemaRow st.schemas cid o.2.schema_name with
    | none => exact ih st (fun p hp => h p (List.mem_cons_of_mem o hp))
    | some sr =>
      have hsid : singleSidOf st cid o.2.schema_name = some sr.id := by
        unfold singleSidOf; rw [hf]; rfl
      obtain ⟨i, hi⟩ := h o (List.mem_cons_self o rest) sr.id hsid
      have hsome : (findObjectRow st.objects sr.id o.2.name).isSome := by
        unfold oidOf at hi
        cases hx : findObjectRow st.objects sr.id o.2.name with
        | none => rw [hx] at hi; simp at hi
        | some _ => rfl
      have htail := ih (upsertObjectRow st sr.id o.2.name o.2.otype o.2.description
        .undefined o.2.metadata).1 (fun p hp sid hsid₂ => by
          rw [singleSidOf_upsertObjectRow] at hsid₂
          obtain ⟨j, hj⟩ := h p (List.mem_cons_of_mem o hp) sid hsid₂
          exact ⟨j, oidOf_upsertObjectRow st sr.id o.2.name o.2.otype o.2.description
            .undefined o.2.metadata sid p.2.name j hj⟩)
      rw [htail, objects_length_upsertObjectRow_hit st sr.id o.2.name o.2.otype
        o.2.description .undefined o.2.metadata hsome]

theorem sidOf_storeBasicObjects (cid : Nat) (l : List (String × BasicObjectEntry))
    (st : Store) (c : Nat) (n : String) :
    sidOf (storeBasicObjects cid l st) c n = sidOf st c n := by
  unfold sidOf findSchemaRow
  rw [storeBasicObjects_schemas]

theorem singleSidOf_storeBasicObjects (cid : Nat) (l : List (String × BasicObjectEntry))
    (st : Store) (c : Nat) (n : String) :
    singleSidOf (storeBasicObjects cid l st) c n = singleSidOf st c n := by
  unfold singleSidOf findSingleSchemaRow
  rw [storeBasicObjects_schemas]

theorem oidOf_storeBasicSchemas (cid : Nat) (l : List (String × BasicSchemaEntry))
    (st : Store) (s : Nat) (n : String) :
    oidOf (storeBasicSchemas cid l st) s n = oidOf st s n := by
  unfold oidOf findObjectRow
  rw [storeBasicSchemas_objects]

/-- Idempotence of `storeComprehensiveMetadata`: a second run over the same metadata
leaves the Schema/Object/Field row counts unchanged and writes no history rows. -/
theorem storeComprehensiveMetadata_idem (cid : Nat) (md : Metadata) (st : Store) :
    (storeComprehensiveMetadata cid md (storeComprehensiveMetadata cid md st)).schemas.length =
      (storeComprehensiveMetadata cid md st).schemas.length ∧
    (storeComprehensiveMetadata cid md (storeComprehensiveMetadata cid md st)).objects.length =
      (storeComprehensiveMetadata cid md st).objects.length ∧
    (storeComprehensiveMetadata cid md (storeComprehensiveMetadata cid md st)).fields.length =
      (storeComprehensiveMetadata cid md st).fields.length ∧
    (storeComprehensiveMetadata cid md (storeComprehensiveMetadata cid md st)).history =
      (storeComprehensiveMetadata cid md st).history := by
  have hc := storeDatabases_est cid md.databases st
  have hs := storeDatabases_stable cid md.databases _ hc
  exact ⟨hs.1, hs.2.1, hs.2.2,
    storeDatabases_history cid md.databases (storeComprehensiveMetadata cid md st)⟩

/-- Idempotence of `storeSchemaData`: same property for the basic writer. -/
theorem storeSchemaData_idem (cid : Nat) (rows : List SchemaDataRow) (dsType : String)
    (st : Store) :
    (storeSchemaData cid rows dsType (storeSchemaData cid rows dsType st)).schemas.length =
      (storeSchemaData cid rows dsType st).schemas.length ∧
    (storeSchemaData cid rows dsType (storeSchemaData cid rows dsType st)).objects.length =
      (storeSchemaData cid rows dsType st).objects.length ∧
    (storeSchemaData cid rows dsType (storeSchemaData cid rows dsType st)).fields.length =
      (storeSchemaData cid rows dsType st).fields.length ∧
    (storeSchemaData cid rows dsType (storeSchemaData cid rows dsType st)).history =
      (storeSchemaData cid rows dsType st).history := by
  have hBF : ∀ s : Store, storeSchemaData cid rows dsType s =
      storeBasicObjects cid (groupSchemaData cid dsType rows).2.1
        (storeBasicSchemas cid (groupSchemaData cid dsType rows).1 s) := by
    intro s
    rw [storeSchemaData, storeBasicFields_eq]
  set g := groupSchemaData cid dsType rows with hg
  set stA := storeBasicSchemas cid g.1 st with hA
  set stB := storeBasicObjects cid g.2.1 stA with hB
  have h1 : storeSchemaData cid rows dsType st = stB := hBF st
  set stC := storeBasicSchemas cid g.1 stB with hC
  set stD := storeBasicObjects cid g.2.1 stC with hD
  have h2 : storeSchemaData cid rows dsType stB = stD := hBF stB
  -- schema keys of the grouping are present in `stB`
  have hest : ∀ p ∈ g.1, ∃ i, sidOf stB cid p.2.name = some i := by
    intro p hp
    obtain ⟨i, hi⟩ := storeBasicSchemas_est cid g.1 st p hp
    exact ⟨i, by rw [hB, sidOf_storeBasicObjects]; exact hi⟩
  have hstable := storeBasicSchemas_stable cid g.1 stB hest
  -- object keys used by a second run are present in `stC`
  have hobj : ∀ p ∈ g.2.1, ∀ sid, singleSidOf stC cid p.2.schema_name = some sid →
      ∃ i, oidOf stC sid p.2.name = some i := by
    intro p hp sid hsid
    rw [hC, hstable.2 cid p.2.schema_name, hB, singleSidOf_storeBasicObjects] at hsid
    obtain ⟨i, hi⟩ := storeBasicObjects_est cid g.2.1 stA p hp sid hsid
    refine ⟨i, ?_⟩
    rw [hC, oidOf_storeBasicSchemas, hB]
    exact hi
  have hobjStable := storeBasicObjects_stable cid g.2.1 stC hobj
  rw [h1, h2]
  refine ⟨?_, ?_, ?_, ?_⟩
  · rw [hD, storeBasicObjects_schemas, hC]
    exact hstable.1
  · rw [hD, hobjStable, hC, storeBasicSchemas_objects]
  · rw [hD, storeBasicObjects_fields, hC, storeBasicSchemas_fields]
  · rw [hD, storeBasicObjects_history, hC, storeBasicSchemas_history]

/-- Claim C1 (confirmed).  Idempotence of a sync run: for every connection whose
remote metadata is unchanged between two consecutive pipeline runs — modeled by a
pure gateway oracle, so the extracted metadata (resp. the introspected row set) is the
same in both runs — the second run leaves the Schema, Object and Field row counts
identical to the first run's and appends zero new FieldSemanticsHistory rows, for
both the enhanced writer `storeComprehensiveMetadata` and the basic writer
`storeSchemaData`. -/
theorem claimC1_sync_idempotence (enabled : Bool) (gw : Gateway) (gm : Gemini)
    (conn : ConnInput) (cid : Nat) (st : Store) (rows : List SchemaDataRow)
    (dsType : String) (st₀ : Store) :
    ((storeComprehensiveMetadata cid (extractComprehensiveMetadata enabled gw gm conn).1
        (storeComprehensiveMetadata cid (extractComprehensiveMetadata enabled gw gm conn).1 st)).schemas.length =
      (storeComprehensiveMetadata cid (extractComprehensiveMetadata enabled gw gm conn).1 st).schemas.length ∧
     (storeComprehensiveMetadata cid (extractComprehensiveMetadata enabled gw gm conn).1
        (storeComprehensiveMetadata cid (extractComprehensiveMetadata enabled gw gm conn).1 st)).objects.length =
      (storeComprehensiveMetadata cid (extractComprehensiveMetadata enabled gw gm conn).1 st).objects.length ∧
     (storeComprehensiveMetadata cid (extractComprehensiveMetadata enabled gw gm conn).1
        (storeComprehensiveMetadata cid (extractComprehensiveMetadata enabled gw gm conn).1 st)).fields.length =
      (storeComprehensiveMetadata cid (extractComprehensiveMetadata enabled gw gm conn).1 st).fields.length ∧
     (storeComprehensiveMetadata cid (extractComprehensiveMetadata enabled gw gm conn).1
        (storeComprehensiveMetadata cid (extractComprehensiveMetadata enabled gw gm conn).1 st)).history =
      (storeComprehensiveMetadata cid (extractComprehensiveMetadata enabled gw gm conn).1 st).history) ∧
    ((storeSchemaData cid rows dsType (storeSchemaData cid rows dsType st₀)).schemas.length =
      (storeSchemaData cid rows dsType st₀).schemas.length ∧
     (storeSchemaData cid rows dsType (storeSchemaData cid rows dsType st₀)).objects.length =
      (storeSchemaData cid rows dsType st₀).objects.length ∧
     (storeSchemaData cid rows dsType (storeSchemaData cid rows dsType st₀)).fields.length =
      (storeSchemaData cid rows dsType st₀).fields.length ∧
     (storeSchemaData cid rows dsType (storeSchemaData cid rows dsType st₀)).history =
      (storeSchemaData cid rows dsType st₀).history) :=
  ⟨storeComprehensiveMetadata_idem cid (extractComprehensiveMetadata enabled gw gm conn).1 st,
   storeSchemaData_idem cid rows dsType st₀⟩

/-! Lemmas for the annotator precedence claims. -/

theorem generateColumnDefinition_calls (enabled : Bool) (gm : Gemini)
    (tN cn ct dbN sN : JsVal) :
    ∀ call ∈ (generateColumnDefinition enabled gm tN cn ct dbN sN).2,
      call.columnName = cn.toKey ∧ call.columnType = ct.toKey := by
  intro call hcall
  unfold generateColumnDefinition at hcall
  by_cases h : enabled
  · simp only [h, Bool.not_true, Bool.false_eq_true, if_false, List.mem_singleton] at hcall
    subst hcall
    exact ⟨rfl, rfl⟩
  · simp [h] at hcall

theorem analyzeColumns_calls (enabled : Bool) (gm : Gemini) (tN dbN sN : JsVal)
    (cols : List Column) :
    ∀ call ∈ (analyzeColumns enabled gm tN dbN sN cols).2.1,
      ∃ c ∈ cols, commentNeedsGeneration c.comment = .ok true ∧
        call.columnName = c.name.toKey ∧ call.columnType = c.ctype.toKey := by
  induction cols with
  | nil => intro call hcall; simp [analyzeColumns] at hcall
  | cons c rest ih =>
    intro call hcall
    rw [analyzeColumns] at hcall
    cases hcc : commentNeedsGeneration c.comment with
    | error e =>
      rw [hcc] at hcall
      simp at hcall
    | ok b =>
      rw [hcc] at hcall
      cases b with
      | true =>
        simp only at hcall
        rcases List.mem_append.mp hcall with hl | hr
        · obtain ⟨h₁, h₂⟩ := generateColumnDefinition_calls enabled gm tN c.name c.ctype
            dbN sN call hl
          exact ⟨c, List.mem_cons_self c rest, hcc, h₁, h₂⟩
        · obtain ⟨c₂, hc₂, h₁, h₂, h₃⟩ := ih call hr
          exact ⟨c₂, List.mem_cons_of_mem c hc₂, h₁, h₂, h₃⟩
      | false =>
        simp only at hcall
        obtain ⟨c₂, hc₂, h₁, h₂, h₃⟩ := ih call hcall
        exact ⟨c₂, List.mem_cons_of_mem c hc₂, h₁, h₂, h₃⟩

theorem upsertFieldRow_description_of_comment (st : Store) (oid : Nat) (c : Column)
    (s : String) (hc : c.comment = .str s) :
    (findFieldRow (upsertFieldRow st oid (fieldPayload c)).fields oid c.name).map
      (·.description) = some (JsVal.str s) := by
  have hpn : (fieldPayload c).name = c.name := rfl
  unfold upsertFieldRow
  cases hf : findFieldRow st.fields oid (fieldPayload c).name with
  | some r =>
    simp only
    unfold findFieldRow at hf ⊢
    rw [find_map_comm _ _ _ (fun x => fieldUpd_key oid (fieldPayload c) oid c.name x)]
    rw [hpn] at hf
    rw [hf]
    have hkey : fieldKeyIs oid c.name r = true := List.find?_some hf
    simp only [Option.map_some', hpn, hkey, if_true]
    refine congrArg some ?_
    show (updateFieldRow (fieldPayload c) r).description = JsVal.str s
    unfold updateFieldRow fieldPayload
    simp [hc, applyVal]
  | none =>
    simp only
    unfold findFieldRow at hf ⊢
    rw [hpn] at hf
    rw [find_append_none _ _ _ hf]
    simp only [List.find?]
    have hkey : fieldKeyIs oid c.name
        { id := st.nextId, object_id := oid, name := (fieldPayload c).name,
          data_type := insertVal (fieldPayload c).data_type,
          is_nullable := (fieldPayload c).is_nullable,
          default_type := insertVal (fieldPayload c).default_type,
          default_expression := insertVal (fieldPayload c).default_expression,
          comment := insertVal (fieldPayload c).comment,
          codec_expression := insertVal (fieldPayload c).codec_expression,
          ttl_expression := insertVal (fieldPayload c).ttl_expression,
          description := insertVal (fieldPayload c).description,
          ai_description := insertVal (fieldPayload c).ai_description,
          business_definition := insertVal (fieldPayload c).business_definition,
          metadata := (fieldPayload c).metadata } = true := by
      simp [fieldKeyIs, hpn]
    rw [hkey]
    simp only [Option.map_some']
    refine congrArg some ?_
    show insertVal (fieldPayload c).description = JsVal.str s
    unfold fieldPayload
    simp [hc, insertVal]

/-- Claim C3 (confirmed).  Precedence of native comments: every generative-text
request issued by `analyzeTableStructure` stems from a column whose native comment
needs generation (absent, null, or blank after trimming); a field whose comment is a
non-blank string never satisfies that guard, so the call is never invoked for it, and
after its `data_source_fields` upsert the stored row's `description` equals the
native comment verbatim. -/
theorem claimC3_native_comment_precedence (enabled : Bool) (gm : Gemini)
    (tN dbN sN : JsVal) (cols : List Column) (st : Store) (oid : Nat) (c : Column)
    (s : String) (hc : c.comment = .str s) (hs : jsTrim s ≠ "") :
    (∀ call ∈ (analyzeColumns enabled gm tN dbN sN cols).2.1,
        ∃ c₂ ∈ cols, commentNeedsGeneration c₂.comment = Except.ok true ∧
          call.columnName = c₂.name.toKey ∧ call.columnType = c₂.ctype.toKey) ∧
    commentNeedsGeneration c.comment = Except.ok false ∧
    (findFieldRow (upsertFieldRow st oid (fieldPayload c)).fields oid c.name).map
      (·.description) = some (JsVal.str s) := by
  refine ⟨analyzeColumns_calls enabled gm tN dbN sN cols, ?_,
    upsertFieldRow_description_of_comment st oid c s hc⟩
  rw [hc]
  simp [commentNeedsGeneration, hs]

/-- The commented `status varchar` column of the specification's scenario. -/
def colStatus : Column :=
  { name := .str "status", ctype := .str "varchar", is_nullable := some false,
    default_type := .undefined, default_expression := .null, comment := .str "order status",
    codec_expression := .undefined, ttl_expression := .undefined, ai_definition := .undefined }

/-- A Gemini oracle that always answers with a fixed definition. -/
def gmAlways : Gemini := fun _ => .ok (some "a generated definition")

theorem claimC3_witness :
    (jsTrim "order status" ≠ "") ∧
    ((∀ call ∈ (analyzeColumns true gmAlways (.str "orders") (.str "shop")
          (.str "default") [colStatus]).2.1,
        ∃ c₂ ∈ [colStatus], commentNeedsGeneration c₂.comment = Except.ok true ∧
          call.columnName = c₂.name.toKey ∧ call.columnType = c₂.ctype.toKey) ∧
     commentNeedsGeneration colStatus.comment = Except.ok false ∧
     (findFieldRow (upsertFieldRow Store.empty 0 (fieldPayload colStatus)).fields 0
        colStatus.name).map (·.description) = some (JsVal.str "order status")) :=
  ⟨by decide,
   claimC3_native_comment_precedence true gmAlways (.str "orders") (.str "shop")
     (.str "default") [colStatus] Store.empty 0 colStatus "order status" rfl (by decide)⟩

/-- A one-field metadata tree with the given generated definition, used to exercise
the history behavior across two runs. -/
def mdOneField (defn : JsVal) : Metadata :=
  { databases := [("shop",
      { schemas := [("default",
          { tables := [("orders",
              { columns := [{ name := .str "c", ctype := .str "int", is_nullable := some false,
                              default_type := .undefined, default_expression := .null,
                              comment := .null, codec_expression := .undefined,
                              ttl_expression := .undefined, ai_definition := defn }],
                column_count := 1 })] })] })] }

/-- Claim C4, counterexample: a second run in which the field's
`business_definition` changes from "old def" to "new def" appends zero
FieldSemanticsHistory rows — not exactly one as claimed — and merely overwrites the
Field row in place. -/
theorem claimC4_counterexample :
    ((storeComprehensiveMetadata 1 (mdOneField (.str "old def")) Store.empty).fields.map
        (fun f => (f.name, f.business_definition)) =
      [(JsVal.str "c", JsVal.str "old def")]) ∧
    ((storeComprehensiveMetadata 1 (mdOneField (.str "new def"))
        (storeComprehensiveMetadata 1 (mdOneField (.str "old def")) Store.empty)).fields.map
        (fun f => (f.name, f.business_definition)) =
      [(JsVal.str "c", JsVal.str "new def")]) ∧
    (storeComprehensiveMetadata 1 (mdOneField (.str "new def"))
        (storeComprehensiveMetadata 1 (mdOneField (.str "old def")) Store.empty)).history.length
      = 0 := by
  refine ⟨?_, ?_, ?_⟩ <;> decide

/-- Claim C4 (corrected, amended).  No code path of either writer ever inserts a
`field_semantics_history` row: every run appends zero history rows, whatever changed;
a differing `business_definition` is overwritten on the Field row with no audit
record, and the spec's invariant tying the Field row to the most recent history row
cannot be established (history stays empty). -/
theorem claimC4_amended (cid : Nat) (md : Metadata) (st : Store)
    (rows : List SchemaDataRow) (dsType : String) :
    (storeComprehensiveMetadata cid md st).history = st.history ∧
    (storeSchemaData cid rows dsType st).history = st.history := by
  constructor
  · exact storeDatabases_history cid md.databases st
  · rw [storeSchemaData, storeBasicFields_eq, storeBasicObjects_history,
      storeBasicSchemas_history]

/-! Lemmas about a run with annotation disabled. -/

/-- All columns of an extracted metadata tree. -/
def mdColumns (md : Metadata) : List Column :=
  md.databases.flatMap (fun d => d.2.schemas.flatMap (fun s => s.2.tables.flatMap
    (fun t => t.2.columns)))

theorem objSet_mem {α : Type} (l : List (String × α)) (k : String) (v : α)
    (p : String × α) (hp : p ∈ objSet l k v) : p ∈ l ∨ p = (k, v) := by
  induction l with
  | nil =>
    simp [objSet] at hp
    exact Or.inr hp
  | cons q rest ih =>
    rw [objSet] at hp
    by_cases hk : q.1 = k
    · simp only [hk, if_true] at hp
      cases hp with
      | head => exact Or.inr rfl
      | tail _ hr => exact Or.inl (List.mem_cons_of_mem q hr)
    · simp only [hk, if_false] at hp
      cases hp with
      | head => exact Or.inl (List.mem_cons_self q rest)
      | tail _ hr =>
        cases ih hr with
        | inl h => exact Or.inl (List.mem_cons_of_mem q h)
        | inr h => exact Or.inr h

theorem getTableStructure_ai_undef (gw : Gateway) (conn : ConnInput) (db t : JsVal) :
    ∀ c ∈ getTableStructure gw conn db t, c.ai_definition = .undefined := by
  intro c hc
  unfold getTableStructure at hc
  split at hc
  · simp at hc
  · split at hc
    · simp at hc
    · split at hc
      · obtain ⟨r, _, hr2⟩ := List.mem_map.mp hc
        by_cases hch : conn.ctype = "clickhouse"
        · rw [hch] at hr2
          simp only [if_true] at hr2
          rw [← hr2]
          rfl
        · simp only [hch, if_false] at hr2
          rw [← hr2]
          rfl
      · simp at hc

theorem extractTable_disabled (gw : Gateway) (gm : Gemini) (conn : ConnInput)
    (db : JsVal) (sn : String) (t : JsVal) :
    (extractTable false gw gm conn db sn t).2 = [] ∧
    ∀ c ∈ (extractTable false gw gm conn db sn t).1.columns, c.ai_definition = .undefined := by
  exact ⟨rfl, getTableStructure_ai_undef gw conn db t⟩

theorem extractSchemaEntry_disabled (gw : Gateway) (gm : Gemini) (conn : ConnInput)
    (db : JsVal) (sn : String) :
    (extractSchemaEntry false gw gm conn db sn).2 = [] ∧
    ∀ p ∈ (extractSchemaEntry false gw gm conn db sn).1.tables,
      ∀ c ∈ p.2.columns, c.ai_definition = .undefined := by
  unfold extractSchemaEntry
  generalize getTables gw conn db = tables
  suffices h : ∀ (acc : List (String × TableEntry) × List GeminiCall), acc.2 = [] →
      (∀ p ∈ acc.1, ∀ c ∈ p.2.columns, c.ai_definition = .undefined) →
      (tables.foldl (fun acc table =>
        let r := extractTable false gw gm conn db sn table
        (objSet acc.1 table.toKey r.1, acc.2 ++ r.2)) acc).2 = [] ∧
      ∀ p ∈ (tables.foldl (fun acc table =>
        let r := extractTable false gw gm conn db sn table
        (objSet acc.1 table.toKey r.1, acc.2 ++ r.2)) acc).1,
        ∀ c ∈ p.2.columns, c.ai_definition = .undefined by
    exact h ([], []) rfl (by intro p hp; cases hp)
  induction tables with
  | nil => intro acc h1 h2; exact ⟨h1, h2⟩
  | cons t rest ih =>
    intro acc h1 h2
    refine ih _ ?_ ?_
    · simp only [h1, (extractTable_disabled gw gm conn db sn t).1, List.append_nil]
    · intro p hp c hc
      cases objSet_mem acc.1 t.toKey (extractTable false gw gm conn db sn t).1 p hp with
      | inl h => exact h2 p h c hc
      | inr h =>
        subst h
        exact (extractTable_disabled gw gm conn db sn t).2 c hc

theorem extractDbEntry_disabled (gw : Gateway) (gm : Gemini) (conn : ConnInput)
    (db : JsVal) :
    (extractDbEntry false gw gm conn db).2 = [] ∧
    ∀ s ∈ (extractDbEntry false gw gm conn db).1.schemas,
      ∀ p ∈ s.2.tables, ∀ c ∈ p.2.columns, c.ai_definition = .undefined := by
  have he := extractSchemaEntry_disabled gw gm conn db "default"
  constructor
  · show [] ++ (extractSchemaEntry false gw gm conn db "default").2 = []
    rw [he.1]
    rfl
  · intro s hs p hp c hc
    have hmem : s ∈ [("default", (extractSchemaEntry false gw gm conn db "default").1)] := hs
    rw [List.mem_singleton] at hmem
    subst hmem
    exact he.2 p hp c hc

theorem extract_disabled (gw : Gateway) (gm : Gemini) (conn : ConnInput) :
    (extractComprehensiveMetadata false gw gm conn).2 = [] ∧
    ∀ c ∈ mdColumns (extractComprehensiveMetadata false gw gm conn).1,
      c.ai_definition = .undefined := by
  unfold extractComprehensiveMetadata mdColumns
  generalize getDatabases gw conn = dbs
  suffices h : ∀ (acc : List (String × DbEntry) × List GeminiCall), acc.2 = [] →
      (∀ d ∈ acc.1, ∀ s ∈ d.2.schemas, ∀ p ∈ s.2.tables, ∀ c ∈ p.2.columns,
        c.ai_definition = .undefined) →
      (dbs.foldl (fun acc database =>
        let r := extractDbEntry false gw gm conn database
        (objSet acc.1 database.toKey r.1, acc.2 ++ r.2)) acc).2 = [] ∧
      ∀ d ∈ (dbs.foldl (fun acc database =>
        let r := extractDbEntry false gw gm conn database
        (objSet acc.1 database.toKey r.1, acc.2 ++ r.2)) acc).1,
        ∀ s ∈ d.2.schemas, ∀ p ∈ s.2.tables, ∀ c ∈ p.2.columns,
          c.ai_definition = .undefined by
    obtain ⟨h1, h2⟩ := h ([], []) rfl (by intro d hd; cases hd)
    refine ⟨h1, ?_⟩
    intro c hc
    simp only [List.mem_flatMap] at hc
    obtain ⟨d, hd, s, hs, p, hp, hcc⟩ := hc
    exact h2 d hd s hs p hp c hcc
  induction dbs with
  | nil => intro acc h1 h2; exact ⟨h1, h2⟩
  | cons db rest ih =>
    intro acc h1 h2
    refine ih _ ?_ ?_
    · simp only [h1, (extractDbEntry_disabled gw gm conn db).1, List.append_nil]
    · intro d hd s hs p hp c hc
      cases objSet_mem acc.1 db.toKey (extractDbEntry false gw gm conn db).1 d hd with
      | inl h => exact h2 d h s hs p hp c hc
      | inr h =>
        subst h
        exact (extractDbEntry_disabled gw gm conn db).2 s hs p hp c hc

theorem upsertFieldRow_insert_find (st : Store) (oid : Nat) (p : FieldPayload)
    (hf : findFieldRow st.fields oid p.name = none) :
    (findFieldRow (upsertFieldRow st oid p).fields oid p.name).map
      (fun f => (f.description, f.ai_description, f.business_definition)) =
    some (insertVal p.description, insertVal p.ai_description,
      insertVal p.business_definition) := by
  unfold upsertFieldRow
  split
  · next r heq => rw [hf] at heq; cases heq
  · next heq =>
    unfold findFieldRow at hf ⊢
    rw [find_append_none _ _ _ hf]
    simp [List.find?, fieldKeyIs]

/-- The uncommented `id int` column of the specification's scenario. -/
def colId : Column :=
  { name := .str "id", ctype := .str "int", is_nullable := some false,
    default_type := .undefined, default_expression := .null, comment := .null,
    codec_expression := .undefined, ttl_expression := .undefined, ai_definition := .undefined }

/-- The request connection of the specification's scenario (`mysql`, one database
`shop`). -/
def connShop : ConnInput :=
  { name := "shop-conn", ctype := "mysql", description := .null,
    connection_config := [("database", "shop")] }

/-- A gateway oracle for the scenario: one database `shop`, one table `orders` with
columns `id int` (no comment) and `status varchar` (comment `order status`). -/
def gwShopMysql : Gateway := fun req =>
  if req.query = "SHOW DATABASES" then .ok "table" [[.str "shop"]]
  else if req.query = "SHOW TABLES FROM shop" then .ok "table" [[.str "orders"]]
  else if req.query = mysqlDescribeSql "shop" "orders" then
    .ok "table" [[.str "id", .str "int", .str "NO", .null, .null],
                 [.str "status", .str "varchar", .str "NO", .null, .str "order status"]]
  else .err "unreachable"

set_option maxRecDepth 8000 in
/-- Claim C2, counterexample: in the specification's own scenario run with annotation
disabled, the stored `id` Field row's `description` is `null` — not the fallback
string `Column id of type int` — because the extraction pipeline skips the analyzer
entirely and the writer stores `description: column.comment`. -/
theorem claimC2_counterexample :
    ((storeComprehensiveMetadata 1
        (extractComprehensiveMetadata false gwShopMysql gmAlways connShop).1
        Store.empty).fields.map (fun f => (f.name, f.description, f.ai_description)) =
      [(JsVal.str "id", JsVal.null, JsVal.null),
       (JsVal.str "status", JsVal.str "order status", JsVal.null)]) ∧
    JsVal.null ≠ JsVal.str "Column id of type int" := by
  constructor
  · decide
  · decide

/-- Claim C2 (corrected, amended).  When annotation is disabled the extractor never
invokes the analyzer: a disabled run issues zero generative-text requests and leaves
every extracted column's `ai_definition` absent; `generateColumnDefinition` itself
would return the fallback string `Column <name> of type <type>` if invoked while
disabled, but it never is, so a comment-less field is stored with `description`,
`ai_description` and `business_definition` all `NULL` rather than the fallback
string. -/
theorem claimC2_amended (gw : Gateway) (gm : Gemini) (conn : ConnInput) (st : Store)
    (oid : Nat) (c : Column) (tN cn ct dbN sN : JsVal) :
    (extractComprehensiveMetadata false gw gm conn).2 = [] ∧
    (∀ c₂ ∈ mdColumns (extractComprehensiveMetadata false gw gm conn).1,
      c₂.ai_definition = .undefined) ∧
    (generateColumnDefinition false gm tN cn ct dbN sN).1 = fallbackDefinition cn ct ∧
    (c.ai_definition = .undefined → c.comment = .null →
      findFieldRow st.fields oid c.name = none →
      (findFieldRow (upsertFieldRow st oid (fieldPayload c)).fields oid c.name).map
        (fun f => (f.description, f.ai_description, f.business_definition)) =
      some (.null, .null, .null)) := by
  refine ⟨(extract_disabled gw gm conn).1, (extract_disabled gw gm conn).2, rfl, ?_⟩
  intro hai hcm hf
  have h2 : (findFieldRow (upsertFieldRow st oid (fieldPayload c)).fields oid c.name).map
      (fun f => (f.description, f.ai_description, f.business_definition)) =
    some (insertVal (fieldPayload c).description, insertVal (fieldPayload c).ai_description,
      insertVal (fieldPayload c).business_definition) :=
    upsertFieldRow_insert_find st oid (fieldPayload c) hf
  rw [h2]
  simp only [fieldPayload]
  rw [hcm, hai]
  rfl

theorem claimC2_witness :
    (colId.ai_definition = .undefined ∧ colId.comment = .null ∧
      findFieldRow Store.empty.fields 0 colId.name = none) ∧
    ((extractComprehensiveMetadata false gwShopMysql gmAlways connShop).2 = [] ∧
     (findFieldRow (upsertFieldRow Store.empty 0 (fieldPayload colId)).fields 0
        colId.name).map (fun f => (f.description, f.ai_description, f.business_definition)) =
      some (.null, .null, .null)) :=
  ⟨⟨rfl, rfl, rfl⟩,
   ⟨(claimC2_amended gwShopMysql gmAlways connShop Store.empty 0 colId .null .null .null
       .null .null).1,
    (claimC2_amended gwShopMysql gmAlways connShop Store.empty 0 colId .null .null .null
       .null .null).2.2.2 rfl rfl rfl⟩⟩

/-- Boolean form of the comment guard (meaningful when the guard does not throw). -/
def commentNeedsGenB (v : JsVal) : Bool :=
  match commentNeedsGeneration v with
  | .ok b => b
  | .error _ => false

/-- A gateway oracle with two databases `d1`, `d2`, each holding a table `t` with a
single uncommented column `c int` — two field occurrences sharing the
`(connection, table_name, column_name, column_type)` cache key. -/
def gwTwoDbs : Gateway := fun req =>
  if req.query = "SHOW DATABASES" then .ok "table" [[.str "d1"], [.str "d2"]]
  else if req.query = "SHOW TABLES FROM d1" then .ok "table" [[.str "t"]]
  else if req.query = "SHOW TABLES FROM d2" then .ok "table" [[.str "t"]]
  else if req.query = mysqlDescribeSql "d1" "t" then
    .ok "table" [[.str "c", .str "int", .str "NO", .null, .null]]
  else if req.query = mysqlDescribeSql "d2" "t" then
    .ok "table" [[.str "c", .str "int", .str "NO", .null, .null]]
  else .err "unreachable"

set_option maxRecDepth 8000 in
/-- Claim C5, counterexample: in a run with annotation enabled over two databases
each containing table `t` with uncommented column `c int`, two generative-text
requests carry the shared cache key `(t, c, int)` — not exactly one as claimed — and
the code consults no cache at all (`ai_analysis_cache` is referenced nowhere). -/
theorem claimC5_counterexample :
    (extractComprehensiveMetadata true gwTwoDbs gmAlways connShop).2 =
      [{ databaseName := "d1", schemaName := "default", tableName := "t",
         columnName := "c", columnType := "int" },
       { databaseName := "d2", schemaName := "default", tableName := "t",
         columnName := "c", columnType := "int" }] ∧
    ((extractComprehensiveMetadata true gwTwoDbs gmAlways connShop).2.filter
      (fun call => call.tableName == "t" && call.columnName == "c" &&
        call.columnType == "int")).length = 2 ∧ (2 : Nat) ≠ 1 := by
  refine ⟨?_, ?_, ?_⟩ <;> decide

/-- The comment guard throws only on a `true` boolean comment. -/
theorem commentNeedsGeneration_error (v : JsVal) (e : Unit)
    (h : commentNeedsGeneration v = .error e) : v = .bool true := by
  cases v with
  | undefined => simp [commentNeedsGeneration] at h
  | null => simp [commentNeedsGeneration] at h
  | str s => simp [commentNeedsGeneration] at h
  | bool b =>
    cases b with
    | false => simp [commentNeedsGeneration] at h
    | true => rfl

/-- `generateColumnDefinition` with the analyzer enabled issues exactly one
request. -/
theorem generateColumnDefinition_enabled_calls (gm : Gemini) (tN cn ct dbN sN : JsVal) :
    (generateColumnDefinition true gm tN cn ct dbN sN).2 =
      [{ databaseName := dbN.toKey, schemaName := sN.toKey, tableName := tN.toKey,
         columnName := cn.toKey, columnType := ct.toKey }] := rfl

/-- Claim C5 (corrected, amended).  The AIAnalysisCache is never consulted — no code
in the repository reads or writes `ai_analysis_cache` — and with annotation enabled
`analyzeTableStructure` issues exactly one generative-text request per column whose
comment needs generation, one request per occurrence rather than one per cache
key. -/
theorem claimC5_amended (gm : Gemini) (tN dbN sN : JsVal) (cols : List Column)
    (h : ∀ c ∈ cols, c.comment ≠ .bool true) :
    (analyzeColumns true gm tN dbN sN cols).2.1 =
      (cols.filter (fun c => commentNeedsGenB c.comment)).map (fun c =>
        { databaseName := dbN.toKey, schemaName := sN.toKey, tableName := tN.toKey,
          columnName := c.name.toKey, columnType := c.ctype.toKey }) := by
  induction cols with
  | nil => rfl
  | cons c rest ih =>
    have hcb : c.comment ≠ .bool true := h c (List.mem_cons_self c rest)
    have htail := ih (fun c₂ hc₂ => h c₂ (List.mem_cons_of_mem c hc₂))
    rw [analyzeColumns]
    cases hcc : commentNeedsGeneration c.comment with
    | error e =>
      exact absurd (commentNeedsGeneration_error c.comment e hcc) hcb
    | ok b =>
      cases b with
      | true =>
        simp only
        rw [generateColumnDefinition_enabled_calls, htail]
        have hfb : commentNeedsGenB c.comment = true := by
          unfold commentNeedsGenB; rw [hcc]
        rw [List.filter_cons, hfb]
        simp
      | false =>
        simp only
        rw [htail]
        have hfb : commentNeedsGenB c.comment = false := by
          unfold commentNeedsGenB; rw [hcc]
        rw [List.filter_cons, hfb]
        simp

theorem claimC5_witness :
    (∀ c ∈ [colId], c.comment ≠ .bool true) ∧
    (analyzeColumns true gmAlways (.str "t") (.str "d1") (.str "default") [colId]).2.1 =
      [{ databaseName := "d1", schemaName := "default", tableName := "t",
         columnName := "id", columnType := "int" }] :=
  ⟨by decide,
   (claimC5_amended gmAlways (.str "t") (.str "d1") (.str "default") [colId]
     (by decide)).trans (by decide)⟩

/-- A gateway oracle that fails every request (network error / 5xx). -/
def gwDown : Gateway := fun _ => .err "connect ECONNREFUSED"

set_option maxRecDepth 8000 in
/-- Claim C7, counterexample: with the gateway failing every request, no failure is
surfaced — `getDatabases` silently substitutes the fallback `['default']`,
`getTables` and `getTableStructure` substitute `[]`, and the extraction completes
with a fabricated `default` database entry instead of failing the job. -/
theorem claimC7_counterexample :
    getDatabases gwDown connShop = [.str "default"] ∧
    getTables gwDown connShop (.str "shop") = [] ∧
    getTableStructure gwDown connShop (.str "shop") (.str "orders") = [] ∧
    (extractComprehensiveMetadata false gwDown gmAlways connShop).1 =
      { databases := [("default",
          { schemas := [("default", { tables := [] })] })] } := by
  refine ⟨?_, ?_, ?_, ?_⟩ <;> decide

/-- Claim C7 (corrected, amended).  Gateway errors during enumerate/describe are
caught inside the introspection client and silently replaced by fallback results —
`['default']` for `getDatabases`, `[]` for `getTables` and `getTableStructure` — so
no `IntrospectionFailed` error ever reaches the caller or the job record (and,
trivially, no retry is attempted: each helper maps one request to one response). -/
theorem claimC7_amended (gw : Gateway) (conn : ConnInput) (database table : JsVal)
    (msg : String) :
    (gw { query := "SHOW DATABASES", dstype := conn.ctype,
          config := conn.connection_config } = .err msg →
      getDatabases gw conn = [.str "default"]) ∧
    (gw { query := "SHOW TABLES FROM " ++ database.toKey, dstype := conn.ctype,
          config := conn.connection_config } = .err msg →
      getTables gw conn database = []) ∧
    (∀ q, describeQueryFor conn.ctype database.toKey table.toKey = .ok q →
      gw { query := q, dstype := conn.ctype, config := conn.connection_config } = .err msg →
      getTableStructure gw conn database table = []) := by
  refine ⟨?_, ?_, ?_⟩
  · intro h
    unfold getDatabases
    rw [h]
  · intro h
    unfold getTables
    rw [h]
  · intro q hq h
    unfold getTableStructure
    simp only [hq, h]

theorem claimC7_witness :
    (gwDown { query := "SHOW DATABASES", dstype := connShop.ctype,
              config := connShop.connection_config } = .err "connect ECONNREFUSED") ∧
    getDatabases gwDown connShop = [.str "default"] ∧
    getTables gwDown connShop (.str "shop") = [] ∧
    getTableStructure gwDown connShop (.str "shop") (.str "orders") = [] :=
  ⟨rfl,
   (claimC7_amended gwDown connShop (.str "shop") (.str "orders")
     "connect ECONNREFUSED").1 rfl,
   (claimC7_amended gwDown connShop (.str "shop") (.str "orders")
     "connect ECONNREFUSED").2.1 rfl,
   (claimC7_amended gwDown connShop (.str "shop") (.str "orders")
     "connect ECONNREFUSED").2.2 (mysqlDescribeSql "shop" "orders") rfl rfl⟩

/-- Whether `pat` occurs at the head of `l`. -/
def charsStartWith : List Char → List Char → Bool
  | [], _ => true
  | _ :: _, [] => false
  | a :: as, b :: bs => a == b && charsStartWith as bs

/-- Whether `pat` occurs anywhere in `l`. -/
def charsContain (l pat : List Char) : Bool :=
  match l with
  | [] => pat.isEmpty
  | _ :: t => charsStartWith pat l || charsContain t pat

/-- Executable substring test (`"mentions"`): whether `pat` occurs in `s`. -/
def strMentions (s pat : String) : Bool :=
  charsContain s.data pat.data

/-- A stored `oracle`-typed connection row. -/
def connOracleRow : ConnectionRow :=
  { id := 3, name := "legacy", ctype := "oracle", description := .null,
    connection_config := [("database", "xe")], organization_id := "demo-org",
    created_by := "demo-user" }

/-- A store holding only the oracle connection. -/
def stOracle : Store :=
  { nextId := 4, connections := [connOracleRow], jobs := [], syncHistory := [],
    schemas := [], objects := [], fields := [], history := [] }

/-- An `oracle`-typed request connection (no dialect mapping exists for it). -/
def connOracle : ConnInput :=
  { name := "legacy", ctype := "oracle", description := .null,
    connection_config := [("database", "xe")] }

/-- The event of an enhanced sync request for the oracle connection. -/
def evOracle : EnhEvent :=
  { httpMethod := "POST",
    body := some { connectionId := .newConn, connection := some connOracle,
                   aiAnalysisEnabled := none } }

set_option maxRecDepth 8000 in
/-- Claim C6, counterexample: in the enhanced pipeline an unsupported connection
type does not fail the job with a type-mentioning error.  The unsupported-type throw
is swallowed inside `getTableStructure`, which returns `[]`; the run's job does end
up `failed`, but only because of the unrelated missing storage binding, with an error
message that never mentions `oracle`. -/
theorem claimC6_counterexample :
    getTableStructure gwShopMysql connOracle (.str "shop") (.str "orders") = [] ∧
    (enhancedHandler ⟨none⟩ gwDown gmAlways Store.empty evOracle).resp =
      ⟨500, .err "Metadata extraction failed" (some storeStepTypeError)⟩ ∧
    ((enhancedHandler ⟨none⟩ gwDown gmAlways Store.empty evOracle).store.jobs.map
      (fun j => (j.status, j.error_message))) =
      [("failed", some storeStepTypeError)] ∧
    strMentions storeStepTypeError "oracle" = false ∧
    (enhancedHandler ⟨none⟩ gwDown gmAlways Store.empty evOracle).store.schemas = [] := by
  refine ⟨?_, ?_, ?_, ?_, ?_⟩ <;> decide

/-- Claim C6 (corrected, amended).  Only the basic `schema-sync.js` handler behaves
as claimed: for a connection of unsupported type, `syncSchemaViaMCP` rethrows
`Failed to sync schema via MCP for <type>` — a message mentioning the type — the
handler answers 500 and logs one failed sync-history row carrying that message, and
no Schema rows are written.  In the enhanced pipeline the unsupported-type throw is
caught inside `getTableStructure`, which substitutes `[]`, so that run's failure does
not carry a type-mentioning message. -/
theorem claimC6_amended (gw gw₂ : Gateway) (st : Store) (conn : ConnectionRow)
    (reqId : Nat) (conn₂ : ConnInput) (db t : JsVal) (e : String)
    (hconn : st.connections.find? (fun c => c.id == reqId) = some conn)
    (htype : conn.ctype = "oracle")
    (hq : describeQueryFor conn₂.ctype db.toKey t.toKey = .error e) :
    (basicHandler gw st { httpMethod := "POST", body := some ⟨some reqId⟩ }).1 =
      ⟨500, .err "Internal server error" none⟩ ∧
    (basicHandler gw st { httpMethod := "POST", body := some ⟨some reqId⟩ }).2.syncHistory =
      st.syncHistory ++
        [{ id := st.nextId, connection_id := some reqId, sync_type := "schema",
           status := "failed", objects_synced := 0, fields_synced := 0,
           error_message := some "Failed to sync schema via MCP for oracle",
           completed := false }] ∧
    strMentions "Failed to sync schema via MCP for oracle" "oracle" = true ∧
    (basicHandler gw st { httpMethod := "POST", body := some ⟨some reqId⟩ }).2.schemas =
      st.schemas ∧
    getTableStructure gw₂ conn₂ db t = [] := by
  have hsync : syncSchemaViaMCP gw conn =
      .error "Failed to sync schema via MCP for oracle" := by
    unfold syncSchemaViaMCP basicSyncQuery
    rw [htype]
    rfl
  have hrun : basicHandler gw st { httpMethod := "POST", body := some ⟨some reqId⟩ } =
      (⟨500, .err "Internal server error" none⟩,
       logSyncHistory st (some reqId) "schema" "failed" 0 0
         (some "Failed to sync schema via MCP for oracle")) := by
    unfold basicHandler
    simp only [hconn, hsync]
    rfl
  refine ⟨by rw [hrun], ?_, by decide, by rw [hrun]; rfl, ?_⟩
  · rw [hrun]
    rfl
  · unfold getTableStructure
    simp only [hq]

theorem claimC6_witness :
    (stOracle.connections.find? (fun c => c.id == 3) = some connOracleRow) ∧
    connOracleRow.ctype = "oracle" ∧
    (basicHandler gwDown stOracle { httpMethod := "POST", body := some ⟨some 3⟩ }).1 =
      ⟨500, .err "Internal server error" none⟩ ∧
    getTableStructure gwDown connOracle (.str "shop") (.str "orders") = [] :=
  ⟨rfl, rfl,
   (claimC6_amended gwDown gwDown stOracle connOracleRow 3 connOracle (.str "shop")
     (.str "orders") "Unsupported data source type: oracle" rfl rfl rfl).1,
   (claimC6_amended gwDown gwDown stOracle connOracleRow 3 connOracle (.str "shop")
     (.str "orders") "Unsupported data source type: oracle" rfl rfl rfl).2.2.2.2⟩

/-- The §8-style request: create a new mysql connection and sync it. -/
def evShopNew : EnhEvent :=
  { httpMethod := "POST",
    body := some { connectionId := .newConn, connection := some connShop,
                   aiAnalysisEnabled := none } }

set_option maxRecDepth 8000 in
/-- Claim C8 (code bug), evaluation at the failing input: the extraction succeeds
(summary counts 1 database / 1 table / 2 columns were available), yet the handler
never reaches the `completed`/`progress_percentage = 100`/200 branch — the storage
step's `this.storeComprehensiveMetadata` is `undefined`, so the run answers 500 with
`Metadata extraction failed` and marks the job `failed` with the TypeError text. -/
theorem claimC8_normal_completion_unreachable :
    (enhancedHandler ⟨none⟩ gwShopMysql gmAlways Store.empty evShopNew).resp =
      ⟨500, .err "Metadata extraction failed" (some storeStepTypeError)⟩ ∧
    ((enhancedHandler ⟨none⟩ gwShopMysql gmAlways Store.empty evShopNew).store.jobs.map
      (fun j => (j.status, j.progress_percentage, j.error_message))) =
      [("failed", some 0, some storeStepTypeError)] ∧
    summaryDatabases (extractComprehensiveMetadata false gwShopMysql gmAlways connShop).1
      = 1 ∧
    summaryTables (extractComprehensiveMetadata false gwShopMysql gmAlways connShop).1
      = 1 ∧
    summaryColumns (extractComprehensiveMetadata false gwShopMysql gmAlways connShop).1
      = 2 := by
  refine ⟨?_, ?_, ?_, ?_, ?_⟩ <;> decide

/-- Whether an enhanced request gets past method check, body parse, connection check
and connection-record resolution — i.e. reaches the storage step after extraction. -/
def reachesStorage (st : Store) (ev : EnhEvent) : Bool :=
  ev.httpMethod == "POST" &&
  (match ev.body with
   | none => false
   | some req =>
     match req.connection with
     | none => false
     | some _ =>
       match req.connectionId with
       | .newConn => true
       | .existing i => (st.connections.find? (fun c => c.id == i)).isSome
       | .missing => false)

/-- Claim C9 (confirmed).  `this.storeComprehensiveMetadata` is undefined on the
handler's `this` (only `exports.handler` is ever assigned), so the enhanced handler
can never answer 200; every request that reaches the storage step after successful
extraction gets a 500 `Metadata extraction failed` response carrying the TypeError
text, and its job row is marked `failed` with that message. -/
theorem claimC9_success_branch_unreachable (env : Env) (gw : Gateway) (gm : Gemini)
    (st : Store) (ev : EnhEvent) :
    (enhancedHandler env gw gm st ev).resp.statusCode ≠ 200 ∧
    (reachesStorage st ev = true →
      (enhancedHandler env gw gm st ev).resp =
        ⟨500, .err "Metadata extraction failed" (some storeStepTypeError)⟩ ∧
      ∃ j ∈ (enhancedHandler env gw gm st ev).store.jobs,
        j.status = "failed" ∧ j.error_message = some storeStepTypeError) := by
  by_cases hm : ev.httpMethod = "POST"
  · cases hb : ev.body with
    | none =>
      constructor
      · simp [enhancedHandler, hm, hb]
      · intro hr
        simp [reachesStorage, hm, hb] at hr
    | some req =>
      cases hc : req.connection with
      | none =>
        constructor
        · simp [enhancedHandler, hm, hb, hc]
        · intro hr
          simp [reachesStorage, hm, hb, hc] at hr
      | some conn =>
        cases hcid : req.connectionId with
        | newConn =>
          constructor
          · simp [enhancedHandler, hm, hb, hc, hcid, exportsStoreComprehensiveMetadata]
          · intro _
            constructor
            · simp [enhancedHandler, hm, hb, hc, hcid, exportsStoreComprehensiveMetadata]
            · simp [enhancedHandler, hm, hb, hc, hcid,
                exportsStoreComprehensiveMetadata, jobMarkFailed]
              exact ⟨_, Or.inr rfl, rfl, rfl⟩
        | existing i =>
          cases hf : st.connections.find? (fun c => c.id == i) with
          | none =>
            constructor
            · simp [enhancedHandler, hm, hb, hc, hcid, hf]
            · intro hr
              simp [reachesStorage, hm, hb, hc, hcid, hf] at hr
          | some r =>
            constructor
            · simp [enhancedHandler, hm, hb, hc, hcid, hf,
                exportsStoreComprehensiveMetadata]
            · intro _
              constructor
              · simp [enhancedHandler, hm, hb, hc, hcid, hf,
                  exportsStoreComprehensiveMetadata]
              · simp [enhancedHandler, hm, hb, hc, hcid, hf,
                  exportsStoreComprehensiveMetadata, jobMarkFailed]
                exact ⟨_, Or.inr rfl, rfl, rfl⟩
        | missing =>
          constructor
          · simp [enhancedHandler, hm, hb, hc, hcid]
          · intro hr
            simp [reachesStorage, hm, hb, hc, hcid] at hr
  · constructor
    · simp [enhancedHandler, hm]
    · intro hr
      simp [reachesStorage, hm] at hr

theorem claimC9_witness :
    reachesStorage Store.empty evShopNew = true ∧
    ((enhancedHandler ⟨none⟩ gwShopMysql gmAlways Store.empty evShopNew).resp =
        ⟨500, .err "Metadata extraction failed" (some storeStepTypeError)⟩ ∧
      ∃ j ∈ (enhancedHandler ⟨none⟩ gwShopMysql gmAlways Store.empty
          evShopNew).store.jobs,
        j.status = "failed" ∧ j.error_message = some storeStepTypeError) :=
  ⟨rfl,
   (claimC9_success_branch_unreachable ⟨none⟩ gwShopMysql gmAlways Store.empty
     evShopNew).2 rfl⟩

/-- Erase the one column of `metadata_extraction_jobs` that records the request's
`aiAnalysisEnabled` flag. -/
def scrubJobFlag (j : JobRow) : JobRow := { j with ai_analysis_enabled := true }

/-- Claim C10 (confirmed).  Noninterference of the `aiAnalysisEnabled` flag: two
enhanced-handler runs that differ only in the request's `aiAnalysisEnabled` value
produce the same response, the same Gemini request trace, and the same final store on
every table except the `ai_analysis_enabled` column of the job row, which is the only
place the flag is recorded; whether annotation actually runs is determined solely by
`GEMINI_API_KEY` — when that variable is falsy the run issues no Gemini requests at
all. -/
theorem claimC10_flag_noninterference (env : Env) (gw : Gateway) (gm : Gemini)
    (st : Store) (method : String) (cidv : ConnIdVal) (oconn : Option ConnInput)
    (b₁ b₂ : Option Bool) :
    ((enhancedHandler env gw gm st ⟨method, some ⟨cidv, oconn, b₁⟩⟩).resp =
      (enhancedHandler env gw gm st ⟨method, some ⟨cidv, oconn, b₂⟩⟩).resp) ∧
    ((enhancedHandler env gw gm st ⟨method, some ⟨cidv, oconn, b₁⟩⟩).geminiCalls =
      (enhancedHandler env gw gm st ⟨method, some ⟨cidv, oconn, b₂⟩⟩).geminiCalls) ∧
    ((enhancedHandler env gw gm st ⟨method, some ⟨cidv, oconn, b₁⟩⟩).store.connections =
      (enhancedHandler env gw gm st ⟨method, some ⟨cidv, oconn, b₂⟩⟩).store.connections) ∧
    ((enhancedHandler env gw gm st ⟨method, some ⟨cidv, oconn, b₁⟩⟩).store.schemas =
      (enhancedHandler env gw gm st ⟨method, some ⟨cidv, oconn, b₂⟩⟩).store.schemas) ∧
    ((enhancedHandler env gw gm st ⟨method, some ⟨cidv, oconn, b₁⟩⟩).store.objects =
      (enhancedHandler env gw gm st ⟨method, some ⟨cidv, oconn, b₂⟩⟩).store.objects) ∧
    ((enhancedHandler env gw gm st ⟨method, some ⟨cidv, oconn, b₁⟩⟩).store.fields =
      (enhancedHandler env gw gm st ⟨method, some ⟨cidv, oconn, b₂⟩⟩).store.fields) ∧
    ((enhancedHandler env gw gm st ⟨method, some ⟨cidv, oconn, b₁⟩⟩).store.history =
      (enhancedHandler env gw gm st ⟨method, some ⟨cidv, oconn, b₂⟩⟩).store.history) ∧
    ((enhancedHandler env gw gm st ⟨method, some ⟨cidv, oconn, b₁⟩⟩).store.syncHistory =
      (enhancedHandler env gw gm st ⟨method, some ⟨cidv, oconn, b₂⟩⟩).store.syncHistory) ∧
    ((enhancedHandler env gw gm st ⟨method, some ⟨cidv, oconn, b₁⟩⟩).store.nextId =
      (enhancedHandler env gw gm st ⟨method, some ⟨cidv, oconn, b₂⟩⟩).store.nextId) ∧
    ((enhancedHandler env gw gm st ⟨method, some ⟨cidv, oconn, b₁⟩⟩).store.jobs.map
        scrubJobFlag =
      (enhancedHandler env gw gm st ⟨method, some ⟨cidv, oconn, b₂⟩⟩).store.jobs.map
        scrubJobFlag) ∧
    (envTruthy env.geminiApiKey = false →
      (enhancedHandler env gw gm st ⟨method, some ⟨cidv, oconn, b₁⟩⟩).geminiCalls = []) := by
  by_cases hm : method = "POST"
  · subst hm
    cases oconn with
    | none => simp [enhancedHandler]
    | some conn =>
      cases cidv with
      | newConn =>
        simp only [enhancedHandler]
        simp [exportsStoreComprehensiveMetadata, jobMarkFailed, scrubJobFlag]
        intro h
        rw [h]
        exact (extract_disabled gw gm conn).1
      | existing i =>
        cases hf : st.connections.find? (fun c => c.id == i) with
        | none => simp [enhancedHandler, hf]
        | some r =>
          simp only [enhancedHandler]
          simp [hf, exportsStoreComprehensiveMetadata, jobMarkFailed, scrubJobFlag]
          intro h
          rw [h]
          exact (extract_disabled gw gm conn).1
      | missing => simp [enhancedHandler]
  · simp [enhancedHandler, hm]

theorem claimC10_witness :
    (envTruthy (Env.mk none).geminiApiKey = false) ∧
    ((enhancedHandler ⟨none⟩ gwShopMysql gmAlways Store.empty
        ⟨"POST", some ⟨.newConn, some connShop, some false⟩⟩).resp =
      (enhancedHandler ⟨none⟩ gwShopMysql gmAlways Store.empty
        ⟨"POST", some ⟨.newConn, some connShop, some true⟩⟩).resp) ∧
    (enhancedHandler ⟨none⟩ gwShopMysql gmAlways Store.empty
        ⟨"POST", some ⟨.newConn, some connShop, some false⟩⟩).geminiCalls = [] :=
  ⟨rfl,
   (claimC10_flag_noninterference ⟨none⟩ gwShopMysql gmAlways Store.empty "POST"
     .newConn (some connShop) (some false) (some true)).1,
   (claimC10_flag_noninterference ⟨none⟩ gwShopMysql gmAlways Store.empty "POST"
     .newConn (some connShop) (some false) (some true)).2.2.2.2.2.2.2.2.2.2 rfl⟩
